import Mathlib

/-!
# Verification of the fndr document-intelligence pipeline

Shallow embedding of the core pipeline of the `fndr` repository
(text normalization, address scoring, Lis Pendens party extraction,
4-level lead classification, Slack notification formatting), together
with theorems settling the specification claims.

Strings are modelled as Lean `String`s; all transforms are over the
underlying `List Char`.  JavaScript regular-expression operations are
embedded as explicit, executable character-list scanners that reproduce
the leftmost-match / greedy / lazy semantics of the concrete patterns
appearing in the source.
-/

namespace Fndr

/-! ## Character classes

JavaScript `\s` (the class used by `\s`, `String.prototype.trim`, and
friends) covers the ASCII whitespace characters plus a set of Unicode
space separators.  The source only ever manipulates text where the
distinction among the exotic members is irrelevant, but we model the
full set faithfully. -/

/-- JavaScript whitespace (`\\s`, and the set trimmed by `trim()`):
tab, LF, VT, FF, CR, space, NBSP, Ogham space, the U+2000 block,
LS, PS, NNBSP, MMSP, ideographic space and the BOM. -/
def jsWs (c : Char) : Bool :=
  (9 ≤ c.toNat && c.toNat ≤ 13) || c.toNat = 32 ||
  c.toNat = 0xa0 || c.toNat = 0x1680 ||
  (0x2000 ≤ c.toNat && c.toNat ≤ 0x200a) ||
  c.toNat = 0x2028 || c.toNat = 0x2029 || c.toNat = 0x202f ||
  c.toNat = 0x205f || c.toNat = 0x3000 || c.toNat = 0xfeff

/-- Carriage return or line feed (the class `[\r\n]`). -/
def isCrLf (c : Char) : Bool := c = '\r' || c = '\n'

/-- ASCII decimal digit (`\d`). -/
def isDigit (c : Char) : Bool := '0' ≤ c && c ≤ '9'

/-- ASCII letter (`[A-Za-z]`). -/
def isAsciiAlpha (c : Char) : Bool :=
  ('a' ≤ c && c ≤ 'z') || ('A' ≤ c && c ≤ 'Z')

/-- JavaScript word character (`\w`, the class deciding `\b`). -/
def isWordChar (c : Char) : Bool :=
  isAsciiAlpha c || isDigit c || c = '_'

/-- ASCII lower-casing, as applied by `toLowerCase` on the ASCII range
(the only range the source feeds through it). -/
def lcChar (c : Char) : Char :=
  if 'A' ≤ c && c ≤ 'Z' then Char.ofNat (c.toNat + 32) else c

/-- ASCII upper-casing, as applied by `toUpperCase` on the ASCII range. -/
def ucChar (c : Char) : Char :=
  if 'a' ≤ c && c ≤ 'z' then Char.ofNat (c.toNat - 32) else c

/-! ## Text normalizer (`apps/backend/src/document/text-normalizer.ts`)

Each of the three global-regex replaces is embedded as a single-pass
state machine over the character list, reproducing the leftmost,
non-overlapping, greedy behaviour of the JS `replace(..., /g)` calls. -/

/-- State machine for `.replace(/[\r\n]+/g, ' ')`: each maximal run of
CR/LF characters becomes a single space.  The boolean records whether we
are inside a run whose replacement space has already been emitted. -/
def stripNlGo : Bool → List Char → List Char
  | _, [] => []
  | inRun, c :: cs =>
    if isCrLf c then
      if inRun then stripNlGo true cs else ' ' :: stripNlGo true cs
    else
      c :: stripNlGo false cs

/-- `.replace(/[\r\n]+/g, ' ')`. -/
def stripNl (l : List Char) : List Char := stripNlGo false l

/-- States of the whitespace-collapsing scanner for
`.replace(/\s{2,}/g, ' ')`. -/
inductive WsSt where
  /-- not inside a whitespace run -/
  | normal : WsSt
  /-- exactly one whitespace character seen so far, not yet emitted -/
  | pend (w : Char) : WsSt
  /-- inside a run of length ≥ 2 whose single space was already emitted -/
  | run : WsSt
deriving Repr, DecidableEq

/-- State machine for `.replace(/\s{2,}/g, ' ')`: a maximal whitespace
run of length ≥ 2 becomes one space, a run of length 1 is kept as the
original character. -/
def collapseWsGo : WsSt → List Char → List Char
  | .normal, [] => []
  | .pend w, [] => [w]
  | .run, [] => []
  | .normal, c :: cs =>
    if jsWs c then collapseWsGo (.pend c) cs else c :: collapseWsGo .normal cs
  | .pend w, c :: cs =>
    if jsWs c then ' ' :: collapseWsGo .run cs else w :: c :: collapseWsGo .normal cs
  | .run, c :: cs =>
    if jsWs c then collapseWsGo .run cs else c :: collapseWsGo .normal cs

/-- `.replace(/\s{2,}/g, ' ')`. -/
def collapseWs (l : List Char) : List Char := collapseWsGo .normal l

/-- `String.prototype.trim`. -/
def trimL (l : List Char) : List Char :=
  ((l.dropWhile jsWs).reverse.dropWhile jsWs).reverse

/-- `normalizeWhitespace`: replace CR/LF runs with a space, collapse
whitespace runs of length ≥ 2 to one space, trim. -/
def normalizeWhitespace (s : String) : String :=
  ⟨trimL (collapseWs (stripNl s.data))⟩

/-- State machine for `.replace(/\s*,\s*/g, ', ')`: every comma,
together with the whitespace on both sides of it, becomes `", "`.
`none` means we are consuming the greedy `\s*` trailing a comma just
rewritten; `some pending` buffers whitespace (reversed) that will either
be absorbed by a following comma or flushed verbatim. -/
def commaSpaceGo : Option (List Char) → List Char → List Char
  | none, [] => []
  | some pending, [] => pending.reverse
  | none, c :: cs =>
    if jsWs c then commaSpaceGo none cs
    else if c = ',' then ',' :: ' ' :: commaSpaceGo none cs
    else c :: commaSpaceGo (some []) cs
  | some pending, c :: cs =>
    if jsWs c then commaSpaceGo (some (c :: pending)) cs
    else if c = ',' then ',' :: ' ' :: commaSpaceGo none cs
    else pending.reverse ++ c :: commaSpaceGo (some []) cs

/-- `cleanForAddressExtraction`: collapse whitespace runs, normalize
comma spacing to exactly `", "`, trim. -/
def cleanForAddressExtraction (s : String) : String :=
  ⟨trimL (commaSpaceGo (some []) (collapseWs s.data))⟩

/-- `.replace(/\r\n/g, '\n')`. -/
def crlfToLf : List Char → List Char
  | '\r' :: '\n' :: cs => '\n' :: crlfToLf cs
  | c :: cs => c :: crlfToLf cs
  | [] => []

/-- State machine for `.replace(/\s*\n\s*\n\s*/g, '\n\n')`: a maximal
whitespace run containing at least two line feeds becomes exactly
`"\n\n"` (the pattern's leading/trailing `\s*` are greedy, so the
leftmost match covers the whole run).  The state buffers the reversed
run seen so far together with the number of line feeds in it. -/
def paraGo : List Char → Nat → List Char → List Char
  | pending, nl, [] => if nl ≥ 2 then ['\n', '\n'] else pending.reverse
  | pending, nl, c :: cs =>
    if jsWs c then
      paraGo (c :: pending) (if c = '\n' then nl + 1 else nl) cs
    else
      (if nl ≥ 2 then ['\n', '\n'] else pending.reverse) ++ c :: paraGo [] 0 cs

/-- States of the OCR line-rejoin scanner for
`.replace(/([a-z])\s*\n\s*([a-z])/gi, '$1 $2')`. -/
inductive JoinSt where
  /-- last emitted character cannot open a match -/
  | idle : JoinSt
  /-- last emitted character is a letter still eligible as `$1` -/
  | afterLetter : JoinSt
  /-- buffering a whitespace run (reversed) after an eligible letter;
  the flag records whether the run contains a line feed -/
  | buf (pending : List Char) (hasNl : Bool) : JoinSt
deriving Repr

/-- State machine for `.replace(/([a-z])\s*\n\s*([a-z])/gi, '$1 $2')`:
a letter, a whitespace run containing a line feed, and a letter are
rejoined with a single space.  Matches are found left to right and do
not overlap, so the second letter of a match cannot open the next one. -/
def joinLinesGo : JoinSt → List Char → List Char
  | .idle, [] => []
  | .afterLetter, [] => []
  | .buf pending _, [] => pending.reverse
  | .idle, c :: cs =>
    if isAsciiAlpha c then c :: joinLinesGo .afterLetter cs
    else c :: joinLinesGo .idle cs
  | .afterLetter, c :: cs =>
    if isAsciiAlpha c then c :: joinLinesGo .afterLetter cs
    else if jsWs c then joinLinesGo (.buf [c] (c = '\n')) cs
    else c :: joinLinesGo .idle cs
  | .buf pending hasNl, c :: cs =>
    if jsWs c then joinLinesGo (.buf (c :: pending) (hasNl || c = '\n')) cs
    else if isAsciiAlpha c then
      if hasNl then ' ' :: c :: joinLinesGo .idle cs
      else pending.reverse ++ c :: joinLinesGo .afterLetter cs
    else pending.reverse ++ c :: joinLinesGo .idle cs

/-- `normalizeForLegalParsing` on character lists: canonicalize line
endings, collapse blank-line runs to a single paragraph break, rejoin
lines broken mid-sentence, trim. -/
def legalL (l : List Char) : List Char :=
  trimL (joinLinesGo .idle
    (paraGo [] 0 (List.map (fun c => if c = '\r' then '\n' else c) (crlfToLf l))))

/-- `normalizeForLegalParsing`. -/
def normalizeForLegalParsing (s : String) : String := ⟨legalL s.data⟩

/-! ## Address extractor/scorer (`parsers/address-parser.ts`)

The scoring regexes are embedded as word-boundary–aware scanners.
A JS `\b` holds between a word character (`[A-Za-z0-9_]`) and a
non-word character or a string edge. -/

/-- There is no word character just after the matched token. -/
def noWordAfter (rest : List Char) : Bool :=
  match rest.head? with
  | none => true
  | some c => !isWordChar c

/-- Scan every position of the list, carrying whether the previous
character is a word character, and test a position-local predicate. -/
def scanPos (test : Bool → List Char → Bool) : Bool → List Char → Bool
  | prevW, [] => test prevW []
  | prevW, c :: cs => test prevW (c :: cs) || scanPos test (isWordChar c) cs

/-- `needle` occurs word-bounded (`\b…\b`) in `hay`.  The needle must
start and end with word characters, which holds for every token the
source uses. -/
def hasWordBounded (needle : List Char) (hay : List Char) : Bool :=
  scanPos
    (fun prevW l =>
      !prevW && needle.isPrefixOf l && noWordAfter (l.drop needle.length))
    false hay

/-- Lower-case a character list (ASCII), for the `/i` regex flag. -/
def lcList (l : List Char) : List Char := l.map lcChar

/-- The street-type tokens of `STREET_TYPE_REGEX` (alternation under
`\b…\b`, case-insensitive). -/
def streetTypeTokens : List String :=
  ["st", "street", "rd", "road", "ave", "avenue", "blvd", "boulevard",
   "ln", "lane", "dr", "drive", "ct", "court", "way", "terrace",
   "pl", "place", "circle", "cir", "parkway", "pkwy", "highway", "hwy"]

/-- `STREET_TYPE_REGEX.test` — some street-type token occurs
word-bounded, case-insensitively. -/
def hasStreetType (l : List Char) : Bool :=
  streetTypeTokens.any fun t => hasWordBounded t.data (lcList l)

/-- `CITY_REGEX.test` — `/\bLexington\b/i`. -/
def hasCity (l : List Char) : Bool :=
  hasWordBounded "lexington".data (lcList l)

/-- `STATE_REGEX.test` — `/\bKY\b|\bKentucky\b/i`. -/
def hasState (l : List Char) : Bool :=
  hasWordBounded "ky".data (lcList l) || hasWordBounded "kentucky".data (lcList l)

/-- `ZIP_REGEX.test` — `/\b\d{5}(?:-\d{4})?\b/`: five digits preceded
by a word boundary, optionally followed by `-` and four digits, with a
word boundary after whichever extent matches. -/
def hasZip (l : List Char) : Bool :=
  scanPos
    (fun prevW l =>
      !prevW &&
      (l.takeWhile isDigit).length ≥ 5 &&
      (let rest := l.drop 5
       (decide ((l.takeWhile isDigit).length = 5) && noWordAfter rest) ||
       (match rest with
        | '-' :: r2 => decide ((r2.takeWhile isDigit).length ≥ 4) && noWordAfter (r2.drop 4)
        | _ => false))
    )
    false l

/-- The non-address phrases of `NON_ADDRESS_PATTERNS` (all
word-bounded, case-insensitive). -/
def nonAddressTokens : List String :=
  ["south of", "north of", "east of", "west of", "commonwealth",
   "circuit court", "case", "filed", "plaintiff", "defendant"]

/-- Some non-address phrase occurs in the candidate. -/
def matchesNonAddress (l : List Char) : Bool :=
  nonAddressTokens.any fun t => hasWordBounded t.data (lcList l)

/-- `LEADING_NUMBER_REGEX.test` — `/^\s*\d{1,6}(\s|[A-Za-z])/`: after
leading whitespace, one to six digits immediately followed by a space
or an ASCII letter.  (A run of more than six digits never matches: any
shorter digit pre-segment is followed by another digit.) -/
def hasLeadingNumber (l : List Char) : Bool :=
  let rest := l.dropWhile jsWs
  let k := (rest.takeWhile isDigit).length
  decide (1 ≤ k ∧ k ≤ 6) &&
  (match (rest.drop k).head? with
   | some c => jsWs c || isAsciiAlpha c
   | none => false)

/-- Address quality tier. -/
inductive AddressQuality where
  | high : AddressQuality
  | medium : AddressQuality
  | low : AddressQuality
deriving Repr, DecidableEq

/-- `ParsedAddress`. -/
structure ParsedAddress where
  raw : String
  cleaned : String
  score : Nat
  quality : AddressQuality
  isLikelyAddress : Bool
  reasons : List String
deriving Repr, DecidableEq

/-- `scoreAddressCandidate`: hard-reject non-address phrases, otherwise
accumulate +40 leading street number, +30 street type, +10 city,
+10 state, +10 ZIP, and derive the quality tier from the total. -/
def scoreAddressCandidate (address : String) : ParsedAddress :=
  let cleaned := cleanForAddressExtraction address
  if matchesNonAddress cleaned.data then
    { raw := address, cleaned := cleaned, score := 0, quality := .low,
      isLikelyAddress := false, reasons := ["matched_non_address_phrase"] }
  else
    let score :=
      (if hasLeadingNumber cleaned.data then 40 else 0) +
      (if hasStreetType cleaned.data then 30 else 0) +
      (if hasCity cleaned.data then 10 else 0) +
      (if hasState cleaned.data then 10 else 0) +
      (if hasZip cleaned.data then 10 else 0)
    let reasons :=
      (if hasLeadingNumber cleaned.data then [] else ["no_leading_street_number"]) ++
      (if hasStreetType cleaned.data then [] else ["no_street_type"])
    { raw := address, cleaned := cleaned, score := score,
      quality := if score ≥ 80 then .high else if score ≥ 50 then .medium else .low,
      isLikelyAddress := decide (score ≥ 50), reasons := reasons }

/-- `getBestAddress`: strictly-greater reduce, so the first of the
highest-scoring candidates wins; `none` on the empty list. -/
def getBestAddress (addresses : List ParsedAddress) : Option ParsedAddress :=
  match addresses with
  | [] => none
  | a :: rest => some (rest.foldl (fun best cur => if cur.score > best.score then cur else best) a)

/-! ## A small backtracking regex core

The concrete regexes of the Lis Pendens parser are embedded via an
explicit enumeration of match splits in JS backtracking preference
order.  Every quantifier in the source patterns ranges over a single
character class, so greedy/lazy repetition can be enumerated directly
from the length of the maximal satisfying run, keeping every
definition structurally recursive (and hence kernel-evaluable). -/

/-- Regular expressions as used by the source patterns: literals
(optionally case-insensitive), single-character classes, sequencing,
ordered alternation, greedy option, and greedy/lazy repetition over a
character class. -/
inductive RE where
  /-- the empty regex -/
  | eps : RE
  /-- literal string; `ci` compares ASCII case-insensitively -/
  | lit (ci : Bool) (s : List Char) : RE
  /-- one character of a class -/
  | cls (p : Char → Bool) : RE
  /-- concatenation -/
  | seq (a b : RE) : RE
  /-- ordered alternation (left preferred, as in JS) -/
  | alt (a b : RE) : RE
  /-- greedy `?` -/
  | opt (a : RE) : RE
  /-- greedy `*` over a class -/
  | starG (p : Char → Bool) : RE
  /-- greedy `+` over a class -/
  | plusG (p : Char → Bool) : RE
  /-- lazy `+?` over a class -/
  | plusL (p : Char → Bool) : RE
  /-- greedy `{lo,hi}` over a class -/
  | repRange (p : Char → Bool) (lo hi : Nat) : RE

/-- Case-optionally-insensitive literal prefix test. -/
def litPre (ci : Bool) : List Char → List Char → Bool
  | [], _ => true
  | _ :: _, [] => false
  | a :: as, c :: cs =>
    (if ci then lcChar a = lcChar c else a = c) && litPre ci as cs

/-- All ways a regex can consume a prefix of the input, as
`(consumed, rest)` pairs in JS backtracking preference order. -/
def splits : RE → List Char → List (List Char × List Char)
  | .eps, l => [([], l)]
  | .lit ci s, l =>
    if litPre ci s l then [(l.take s.length, l.drop s.length)] else []
  | .cls _, [] => []
  | .cls p, c :: cs => if p c then [([c], cs)] else []
  | .seq a b, l =>
    (splits a l).flatMap fun pr =>
      (splits b pr.2).map fun qr => (pr.1 ++ qr.1, qr.2)
  | .alt a b, l => splits a l ++ splits b l
  | .opt a, l => splits a l ++ [([], l)]
  | .starG p, l =>
    let k := (l.takeWhile p).length
    (List.range (k + 1)).map fun j => (l.take (k - j), l.drop (k - j))
  | .plusG p, l =>
    let k := (l.takeWhile p).length
    (List.range k).map fun j => (l.take (k - j), l.drop (k - j))
  | .plusL p, l =>
    let k := (l.takeWhile p).length
    (List.range k).map fun j => (l.take (j + 1), l.drop (j + 1))
  | .repRange p lo hi, l =>
    let k := min (l.takeWhile p).length hi
    if k < lo then []
    else (List.range (k + 1 - lo)).map fun j => (l.take (k - j), l.drop (k - j))

/-- Ordered alternation of a list of regexes. -/
def altOf : List RE → RE
  | [] => .eps
  | [r] => r
  | r :: rs => .alt r (altOf rs)

/-- Fold a list of regexes into a sequence. -/
def seqOf : List RE → RE
  | [] => .eps
  | [r] => r
  | r :: rs => .seq r (seqOf rs)

/-- Convenience: case-insensitive literal. -/
def reLit (s : String) : RE := .lit true s.data

/-- Convenience: case-sensitive literal. -/
def reLitCs (s : String) : RE := .lit false s.data

/-- The first (JS-preferred) match of `re` starting exactly here. -/
def headSplit (re : RE) (l : List Char) : Option (List Char × List Char) :=
  (splits re l).head?

/-- Leftmost match: scan start positions left to right and take the
preferred split at the first position admitting one. -/
def scanMatch (re : RE) : List Char → Option (List Char × List Char)
  | [] => headSplit re []
  | c :: cs =>
    match headSplit re (c :: cs) with
    | some r => some r
    | none => scanMatch re cs

/-- All matches of a `/g` regex: leftmost match, then continue after
it.  `fuel` bounds the number of matches; every source pattern consumes
at least one character per match, so `length + 1` fuel is exhaustive. -/
def allMatchesGo (re : RE) : Nat → List Char → List (List Char)
  | 0, _ => []
  | fuel + 1, l =>
    match scanMatch re l with
    | none => []
    | some (m, r) => m :: allMatchesGo re fuel r

/-- `String.prototype.match` with a `/g` regex: the list of matched
substrings. -/
def allMatches (re : RE) (l : List Char) : List (List Char) :=
  allMatchesGo re (l.length + 1) l

/-- `regex.test`, where the pattern is wrapped in `\b…\b`: some
position admits a split whose ends both lie on word boundaries. -/
def reTestBounded (re : RE) (l : List Char) : Bool :=
  scanPos
    (fun prevW l =>
      (splits re l).any fun pr =>
        (match pr.1.head? with
         | none => false
         | some c => decide (prevW ≠ isWordChar c)) &&
        (match pr.1.getLast? with
         | none => false
         | some c => decide (isWordChar c ≠ (pr.2.head?.elim false isWordChar))))
    false l

/-- `regex.test` for an unanchored pattern without boundaries. -/
def reTest (re : RE) (l : List Char) : Bool :=
  (scanMatch re l).isSome

/-- `regex.test` for a `^`-anchored pattern (no `/m` flag). -/
def reTestStart (re : RE) (l : List Char) : Bool :=
  !(splits re l).isEmpty

/-! ## Lis Pendens parser (`parsers/lis-pendens-parser.ts`) -/

/-- Upper-case ASCII letter (`[A-Z]`, no `/i`). -/
def isUpper (c : Char) : Bool := 'A' ≤ c && c ≤ 'Z'

/-- Lower-case ASCII letter (`[a-z]`, no `/i`). -/
def isLower (c : Char) : Bool := 'a' ≤ c && c ≤ 'z'

/-- Words joined by `\s+`. -/
def wordsRe (ws : List String) : RE :=
  seqOf ((ws.map reLit).intersperse (.plusG jsWs))

/-- `/\bn\.?a\.?\b/i` (National Association). -/
def naRe : RE :=
  .seq (reLit "n") (.seq (.opt (reLitCs ".")) (.seq (reLit "a") (.opt (reLitCs "."))))

/-- A word followed by an optional literal dot. -/
def dotOpt (s : String) : RE := .seq (reLit s) (.opt (reLitCs "."))

/-- `GOOD_PLAINTIFF_PATTERNS` (all `\b…\b`, case-insensitive). -/
def goodPlaintiffREs : List RE :=
  [reLit "bank", naRe, wordsRe ["federal", "credit", "union"],
   wordsRe ["credit", "union"], reLit "mortgage", reLit "lending",
   reLit "loan", reLit "financial", reLit "servicing", reLit "trustee",
   wordsRe ["wells", "fargo"], reLit "chase", reLit "citibank",
   wordsRe ["bank", "of", "america"], reLit "pnc", wordsRe ["us", "bank"],
   wordsRe ["fifth", "third"], wordsRe ["fannie", "mae"],
   wordsRe ["freddie", "mac"]]

/-- `/\bhomeowners?\s+association\b/i`. -/
def hoaAssocRe : RE :=
  .seq (reLit "homeowner") (.seq (.opt (reLit "s")) (.seq (.plusG jsWs) (reLit "association")))

/-- `/\bproperty\s+owners?\s+association\b/i`. -/
def poaAssocRe : RE :=
  seqOf [reLit "property", .plusG jsWs, reLit "owner", .opt (reLit "s"),
    .plusG jsWs, reLit "association"]

/-- `BAD_PLAINTIFF_PATTERNS` (all `\b…\b`, case-insensitive). -/
def badPlaintiffREs : List RE :=
  [reLit "hoa", hoaAssocRe, poaAssocRe, reLit "county", wordsRe ["city", "of"],
   reLit "commonwealth", wordsRe ["state", "of"],
   .seq (reLit "demo") (.opt (reLit "lition")),
   wordsRe ["service", "llc"], reLit "construction",
   .seq (reLit "contract") (.opt (.alt (reLit "or") (reLit "ing"))),
   reLit "plumbing", .seq (reLit "electric") (.opt (reLit "al")),
   reLit "roofing", .seq (reLit "landscap") (.alt (reLit "e") (reLit "ing"))]

/-- Plaintiff semantic types. -/
inductive PlaintiffType where
  | bank | credit_union | mortgage_servicer | hoa | llc | government
  | individual | unknown
deriving Repr, DecidableEq

/-- Defendant semantic types. -/
inductive DefendantType where
  | individual | couple | trust | llc | unknown
deriving Repr, DecidableEq

/-- `PLAINTIFF_TYPE_PATTERNS`: ordered (type, patterns) table. -/
def plaintiffTypeTable : List (PlaintiffType × List RE) :=
  [(.bank, [reLit "bank", naRe, wordsRe ["wells", "fargo"], reLit "chase",
            reLit "citibank", reLit "pnc"]),
   (.credit_union, [wordsRe ["credit", "union"],
            wordsRe ["federal", "credit", "union"], reLit "fcu"]),
   (.mortgage_servicer, [reLit "mortgage", reLit "servicing", reLit "loan"]),
   (.hoa, [reLit "hoa", hoaAssocRe, poaAssocRe]),
   (.government, [reLit "county", wordsRe ["city", "of"], reLit "commonwealth",
            wordsRe ["state", "of"]]),
   (.llc, [reLit "llc", reLit "l.l.c"])]

/-- `BAD_DEFENDANT_PATTERNS` (all `\b…\b`, case-insensitive). -/
def badDefendantREs : List RE :=
  [reLit "llc", .seq (reLit "l.l.c") (.opt (reLitCs ".")),
   dotOpt "inc", reLit "incorporated", dotOpt "corp", reLit "corporation",
   reLit "company", reLit "co.", wordsRe ["limited", "partnership"],
   reLit "lp", dotOpt "ltd"]

/-- `/\s+&\s+/` (unbounded, used for couples and plaintiff splitting). -/
def ampRe : RE := seqOf [.plusG jsWs, reLitCs "&", .plusG jsWs]

/-- `DEFENDANT_TYPE_PATTERNS`, with each pattern tagged by whether it is
word-bounded (`\b…\b`) or a bare search (`/\s+&\s+/`). -/
def defendantTypeTable : List (DefendantType × List (RE × Bool)) :=
  [(.trust, [(reLit "trust", true), (reLit "trustee", true),
             (wordsRe ["as", "trustee"], true)]),
   (.couple, [(reLit "and", true), (ampRe, false)]),
   (.llc, [(reLit "llc", true), (.seq (reLit "l.l.c") (.opt (reLitCs ".")), true),
           (dotOpt "inc", true), (dotOpt "corp", true)])]

/-- Run a pattern as `test`, bounded or not. -/
def runTest (re : RE) (bounded : Bool) (l : List Char) : Bool :=
  if bounded then reTestBounded re l else reTest re l

/-- `PlaintiffInfo`. -/
structure PlaintiffInfo where
  name : String
  type : PlaintiffType
  isGoodLead : Bool
  concerns : List String
deriving Repr, DecidableEq

/-- `DefendantInfo`. -/
structure DefendantInfo where
  name : String
  type : DefendantType
  isGoodLead : Bool
  mailingAddress : Option String := none
deriving Repr, DecidableEq

/-! ### Capture-group extraction -/

/-- The JS-preferred capture of `pre (cap) post` matching at this exact
position, if any. -/
def captureAt (pre cap post : RE) (l : List Char) : Option (List Char) :=
  (splits pre l).findSome? fun pr =>
    (splits cap pr.2).findSome? fun qr =>
      if (splits post qr.2).isEmpty then none else some qr.1

/-- Scan positions left to right carrying the previous character, and
return the first capture found. -/
def scanCaptureGo (f : Option Char → List Char → Option (List Char)) :
    Option Char → List Char → Option (List Char)
  | prev, [] => f prev []
  | prev, c :: cs =>
    match f prev (c :: cs) with
    | some v => some v
    | none => scanCaptureGo f (some c) cs

/-- Leftmost capture of an unanchored `pre (cap) post` pattern. -/
def findCapture (pre cap post : RE) (l : List Char) : Option (List Char) :=
  scanCaptureGo (fun _ l => captureAt pre cap post l) none l

/-- Leftmost capture of a `(?:^|\n) pre (cap) post` pattern under `/m`:
at each position, first try the zero-width `^` (start of input or just
after a line feed), then the alternative consuming a literal `\n`. -/
def findCaptureAfterNl (pre cap post : RE) (l : List Char) : Option (List Char) :=
  scanCaptureGo
    (fun prev l =>
      match (if prev = none || prev = some '\n' then captureAt pre cap post l else none) with
      | some v => some v
      | none =>
        match l with
        | '\n' :: cs => captureAt pre cap post cs
        | _ => none)
    none l

/-- `(?:vs?\.?|versus)` (in `/i` patterns). -/
def vsAltRe : RE :=
  .alt (.seq (reLit "v") (.seq (.opt (reLit "s")) (.opt (reLitCs "."))))
    (reLit "versus")

/-- Capture of the first plaintiff pattern
`/(?:^|\n)\s*([^\n]+?)\s*(?:,\s*)?(?:plaintiff|petitioner)/im`
(and of the analogous defendant pattern, by passing its keywords). -/
def labelLineCapture (kw : RE) (l : List Char) : Option (List Char) :=
  findCaptureAfterNl (.starG jsWs) (.plusL (fun c => !(c = '\n')))
    (seqOf [.starG jsWs, .opt (.seq (reLitCs ",") (.starG jsWs)), kw]) l

/-- Capture of `/plaintiff[:\s]+([^\n,]+)/im` (or the defendant form). -/
def labeledNameCapture (kw : String) (l : List Char) : Option (List Char) :=
  findCapture (.seq (reLit kw) (.plusG fun c => c = ':' || jsWs c))
    (.plusG fun c => !(c = '\n' || c = ',')) .eps l

/-- Capture of `/([A-Z][A-Za-z\s,.]+?)\s+v\.?\s+/m` (case-sensitive). -/
def nameBeforeVCapture (l : List Char) : Option (List Char) :=
  findCapture .eps
    (.seq (.cls isUpper) (.plusL fun c => isAsciiAlpha c || jsWs c || c = ',' || c = '.'))
    (seqOf [.plusG jsWs, reLitCs "v", .opt (reLitCs "."), .plusG jsWs]) l

/-- Capture of `/([^\n]+?)\s+(?:vs?\.?|versus)\s+/im`. -/
def nameBeforeVsCapture (l : List Char) : Option (List Char) :=
  findCapture .eps (.plusL fun c => !(c = '\n'))
    (seqOf [.plusG jsWs, vsAltRe, .plusG jsWs]) l

/-- `(?:\n|,\s*(?:et|defendant))` — the tail of defendant patterns 3/4. -/
def defendantTailRe : RE :=
  .alt (reLitCs "\n")
    (seqOf [reLitCs ",", .starG jsWs, .alt (reLit "et") (reLit "defendant")])

/-- Capture of `/\s+v\.?\s+([A-Z][A-Za-z\s,.]+?)(?:\n|,\s*(?:et|defendant))/im`
(the `/i` flag makes `[A-Z]` match any ASCII letter). -/
def nameAfterVCapture (l : List Char) : Option (List Char) :=
  findCapture (seqOf [.plusG jsWs, reLit "v", .opt (reLitCs "."), .plusG jsWs])
    (.seq (.cls isAsciiAlpha) (.plusL fun c => isAsciiAlpha c || jsWs c || c = ',' || c = '.'))
    defendantTailRe l

/-- Capture of `/(?:vs?\.?|versus)\s+([^\n]+?)(?:\n|,\s*(?:et|defendant))/im`. -/
def nameAfterVsCapture (l : List Char) : Option (List Char) :=
  findCapture (.seq vsAltRe (.plusG jsWs)) (.plusL fun c => !(c = '\n'))
    defendantTailRe l

/-! ### Name cleanup and extraction -/

/-- Remove the leftmost end-anchored (`…$`) match of `re`, if any
(`.replace(/re$/i, '')` for the suffix patterns of the source). -/
def stripEndRe (re : RE) : List Char → List Char
  | [] => []
  | c :: cs =>
    if (splits re (c :: cs)).any (fun pr => pr.2.isEmpty) then []
    else c :: stripEndRe re cs

/-- `.replace(/^\s*re:\s*/i, '')`. -/
def stripLeadingRe (l : List Char) : List Char :=
  let a := l.dropWhile jsWs
  if litPre true "re:".data a then (a.drop 3).dropWhile jsWs else l

/-- `/,?\s*plaintiff$/i` (as an end-anchored suffix matcher). -/
def plaintiffSuffixRe : RE :=
  seqOf [.opt (reLitCs ","), .starG jsWs, reLit "plaintiff"]

/-- `/,?\s*defendant$/i`. -/
def defendantSuffixRe : RE :=
  seqOf [.opt (reLitCs ","), .starG jsWs, reLit "defendant"]

/-- `/,?\s*et\s+al\.?$/i`. -/
def etAlSuffixRe : RE :=
  seqOf [.opt (reLitCs ","), .starG jsWs, reLit "et", .plusG jsWs,
    reLit "al", .opt (reLitCs ".")]

/-- Post-process a captured plaintiff name:
`.trim().replace(/,?\s*plaintiff$/i,'').replace(/^\s*re:\s*/i,'').trim()`. -/
def cleanPlaintiffCapture (cap : List Char) : List Char :=
  trimL (stripLeadingRe (stripEndRe plaintiffSuffixRe (trimL cap)))

/-- Post-process a captured defendant name:
`.trim().replace(/,?\s*defendant$/i,'').replace(/,?\s*et\s+al\.?$/i,'').trim()`. -/
def cleanDefendantCapture (cap : List Char) : List Char :=
  trimL (stripEndRe etAlSuffixRe (stripEndRe defendantSuffixRe (trimL cap)))

/-- Accept a cleaned name iff `2 < length < 200`. -/
def acceptName (name : List Char) : Option (List Char) :=
  if 2 < name.length ∧ name.length < 200 then some name else none

/-- The four plaintiff patterns' captures, in order. -/
def plaintiffCands (n : List Char) : List (Option (List Char)) :=
  [labelLineCapture (.alt (reLit "plaintiff") (reLit "petitioner")) n,
   labeledNameCapture "plaintiff" n,
   nameBeforeVCapture n,
   nameBeforeVsCapture n]

/-- The four defendant patterns' captures, in order. -/
def defendantCands (n : List Char) : List (Option (List Char)) :=
  [labelLineCapture (.alt (reLit "defendant") (reLit "respondent")) n,
   labeledNameCapture "defendant" n,
   nameAfterVCapture n,
   nameAfterVsCapture n]

/-- `extractPlaintiffName`: try the four patterns in order, accept the
first whose cleaned capture has admissible length, else the sentinel. -/
def extractPlaintiffName (s : String) : String :=
  ⟨((plaintiffCands (legalL s.data)).findSome? fun oc => oc.bind fun cap =>
      acceptName (cleanPlaintiffCapture cap)).getD "Unknown Plaintiff".data⟩

/-- `extractDefendantName`: the mirrored four defendant patterns. -/
def extractDefendantName (s : String) : String :=
  ⟨((defendantCands (legalL s.data)).findSome? fun oc => oc.bind fun cap =>
      acceptName (cleanDefendantCapture cap)).getD "Unknown Defendant".data⟩

/-! ### Party classification -/

/-- Split the text before "vs" on `/\band\b|\s+&\s+/i`, as JS
`String.prototype.split` does (leftmost separators, scanned left to
right).  `fuel` decreases on every step; each step consumes at least
one character. -/
def vsSplitGo : Nat → Bool → List Char → List Char → List (List Char)
  | 0, _, acc, _ => [acc.reverse]
  | _ + 1, _, acc, [] => [acc.reverse]
  | fuel + 1, prevW, acc, c :: cs =>
    if !prevW && litPre true "and".data (c :: cs) && noWordAfter ((c :: cs).drop 3) then
      acc.reverse :: vsSplitGo fuel true [] ((c :: cs).drop 3)
    else if jsWs c then
      let k := ((c :: cs).takeWhile jsWs).length
      match (c :: cs).drop k with
      | '&' :: r2 =>
        let k2 := (r2.takeWhile jsWs).length
        if k2 ≥ 1 then
          acc.reverse :: vsSplitGo fuel false [] (r2.drop k2)
        else
          vsSplitGo fuel false (((c :: cs).take k).reverse ++ acc) ('&' :: r2)
      | rest => vsSplitGo fuel false (((c :: cs).take k).reverse ++ acc) rest
  else
      vsSplitGo fuel (isWordChar c) (c :: acc) cs

/-- `classifyPlaintiff`: multi-plaintiff concern, ordered type table,
individual-name fallback, and the good/bad pattern verdict. -/
def classifyPlaintiff (name : List Char) (fullText : List Char) : PlaintiffInfo :=
  let vsSection := (findCapture .eps (.plusL fun _ => true) vsAltRe fullText).getD []
  let concerns :=
    if reTestBounded (reLit "and") vsSection || reTest ampRe vsSection then
      let parts := vsSplitGo (vsSection.length + 1) false [] vsSection
      let bankCount :=
        (parts.filter fun p => goodPlaintiffREs.any fun re => reTestBounded re p).length
      if bankCount > 1 then ["Multiple plaintiffs - potential second mortgage"] else []
    else []
  let type0 :=
    (plaintiffTypeTable.findSome? fun tp =>
      if tp.2.any (fun re => reTestBounded re name) then some tp.1 else none).getD .unknown
  let type1 :=
    if type0 = .unknown && !(badPlaintiffREs.any fun re => reTestBounded re name) then
      if reTestStart (seqOf [.cls isUpper, .plusG isLower, .plusG jsWs,
            .cls isUpper, .plusG isLower]) name ||
         reTestStart (seqOf [.cls isUpper, .plusG isLower, reLitCs ",",
            .starG jsWs, .cls isUpper, .plusG isLower]) name then
        PlaintiffType.individual
      else type0
    else type0
  let isGood := goodPlaintiffREs.any fun re => reTestBounded re name
  let isBad := badPlaintiffREs.any fun re => reTestBounded re name
  { name := normalizeWhitespace ⟨name⟩, type := type1,
    isGoodLead := isGood && !isBad, concerns := concerns }

/-- The three mailing-address capture patterns of `classifyDefendant`. -/
def mailingCaptures (l : List Char) : Option (List Char) :=
  let nonNl := RE.plusG fun c => !(c = '\n')
  match findCapture
      (seqOf [altOf [reLit "residing", reLit "resides",
          .seq (reLit "live") (.opt (reLit "s"))],
        .plusG jsWs, reLit "at", .plusG jsWs]) nonNl .eps l with
  | some v => some v
  | none =>
    match findCapture
        (seqOf [.alt (reLit "whose") (reLit "their"), .plusG jsWs,
          .opt (.seq (reLit "mailing") (.plusG jsWs)), reLit "address",
          .plusG jsWs, reLit "is", .plusG jsWs]) nonNl .eps l with
    | some v => some v
    | none =>
      findCapture
        (seqOf [reLit "mailing", .plusG jsWs, reLit "address",
          .plusG fun c => c = ':' || jsWs c]) nonNl .eps l

/-- `classifyDefendant`: ordered type table, individual fallback,
mailing-address capture, business-entity verdict. -/
def classifyDefendant (name : List Char) (fullText : List Char) : DefendantInfo :=
  let type0 :=
    (defendantTypeTable.findSome? fun tp =>
      if tp.2.any (fun pb => runTest pb.1 pb.2 name) then some tp.1 else none).getD .unknown
  let type1 :=
    if type0 = .unknown && !(badDefendantREs.any fun re => reTestBounded re name) then
      DefendantType.individual
    else type0
  let mailing := (mailingCaptures fullText).map fun v => normalizeWhitespace ⟨v⟩
  let isBad := badDefendantREs.any fun re => reTestBounded re name
  { name := normalizeWhitespace ⟨name⟩, type := type1,
    isGoodLead := !isBad, mailingAddress := mailing }

/-! ### Address pattern extraction and document parsing -/

/-- The street-name class `[A-Za-z0-9.\-\s]`. -/
def clsStreetName (c : Char) : Bool :=
  isAsciiAlpha c || isDigit c || c = '.' || c = '-' || jsWs c

/-- The ordered street-type alternation of `ADDRESS_PATTERNS`. -/
def streetTypeAltRe : RE :=
  altOf [dotOpt "st", reLit "street", dotOpt "ave", reLit "avenue",
    dotOpt "rd", reLit "road", dotOpt "blvd", reLit "boulevard",
    dotOpt "ln", reLit "lane", dotOpt "dr", reLit "drive",
    dotOpt "ct", reLit "court", reLit "way", reLit "terrace",
    dotOpt "pl", reLit "place", reLit "circle", dotOpt "cir",
    reLit "parkway", dotOpt "pkwy", reLit "highway", dotOpt "hwy"]

/-- `(?:[\s,]+(?:Suite|Ste\.?|Unit|Apt\.?|#)\s*[A-Za-z0-9\-]+)?`. -/
def unitSuffixRe : RE :=
  .opt (seqOf [.plusG (fun c => jsWs c || c = ','),
    altOf [reLit "suite", dotOpt "ste", reLit "unit", dotOpt "apt", reLitCs "#"],
    .starG jsWs, .plusG (fun c => isAsciiAlpha c || isDigit c || c = '-')])

/-- The first address pattern (street with city, state and ZIP). -/
def addressPatternFull : RE :=
  seqOf [.repRange isDigit 1 6, .plusG jsWs, .plusL clsStreetName,
    .plusG jsWs, streetTypeAltRe, unitSuffixRe,
    .plusG (fun c => jsWs c || c = ','), .plusG (fun c => isAsciiAlpha c || jsWs c),
    reLitCs ",", .starG jsWs, .repRange isAsciiAlpha 2 2, .plusG jsWs,
    .repRange isDigit 5 5, .opt (.seq (reLitCs "-") (.repRange isDigit 4 4))]

/-- The second address pattern (street only, optional directional). -/
def addressPatternStreet : RE :=
  seqOf [.repRange isDigit 1 6, .opt (.seq (reLitCs "-") (.cls isAsciiAlpha)),
    .plusG jsWs,
    .opt (altOf [reLit "north", reLit "south", reLit "east", reLit "west",
      dotOpt "n", dotOpt "s", dotOpt "e", dotOpt "w"]),
    .starG jsWs, .plusL clsStreetName, .plusG jsWs, streetTypeAltRe,
    unitSuffixRe]

/-- `extractAddressesFromText`: run both `/g` patterns over
whitespace-normalized text, deduplicate cleaned matches preserving
first-seen order, score each candidate. -/
def extractAddressesFromText (s : String) : List ParsedAddress :=
  let n := (normalizeWhitespace s).data
  let ms := allMatches addressPatternFull n ++ allMatches addressPatternStreet n
  ((ms.map fun m => (cleanForAddressExtraction ⟨m⟩).data).eraseDups).map
    fun m => scoreAddressCandidate ⟨m⟩

/-- `LisPendensParseResult`. -/
structure LisPendensParseResult where
  plaintiff : PlaintiffInfo
  defendant : DefendantInfo
  propertyAddress : Option ParsedAddress
  mailingAddress : Option ParsedAddress
  allAddresses : List ParsedAddress
  rawText : String
deriving Repr, DecidableEq

/-- Stable insertion keeping earlier elements first among equal scores
(models the stable JS `sort((a, b) => b.score - a.score)`). -/
def insByScore (a : ParsedAddress) : List ParsedAddress → List ParsedAddress
  | [] => [a]
  | b :: bs => if a.score > b.score then a :: b :: bs else b :: insByScore a bs

/-- Stable descending sort by score. -/
def sortByScoreDesc (l : List ParsedAddress) : List ParsedAddress :=
  l.foldl (fun acc x => insByScore x acc) []

/-- `parseLisPendens`: normalize, extract and classify both parties,
extract and score addresses, pick property and mailing addresses. -/
def parseLisPendens (text : String) : LisPendensParseResult :=
  let normalizedText := normalizeForLegalParsing text
  let plaintiffName := extractPlaintiffName normalizedText
  let defendantName := extractDefendantName normalizedText
  let plaintiff := classifyPlaintiff plaintiffName.data normalizedText.data
  let defendant := classifyDefendant defendantName.data normalizedText.data
  let allAddresses := extractAddressesFromText normalizedText
  let propertyAddress := getBestAddress allAddresses
  let mailing0 := defendant.mailingAddress.bind fun m =>
    getBestAddress (extractAddressesFromText m)
  let mailingAddress :=
    match mailing0 with
    | some m => some m
    | none =>
      if allAddresses.length > 1 then
        match sortByScoreDesc allAddresses with
        | a :: b :: _ => if a.cleaned ≠ b.cleaned then some b else none
        | _ => none
      else none
  { plaintiff := plaintiff, defendant := defendant,
    propertyAddress := propertyAddress, mailingAddress := mailingAddress,
    allAddresses := allAddresses, rawText := text }

/-! ## Lead classifier (`apps/backend/src/classifiers/lead-classifier.ts`)

JS `Date` values are modelled as integer millisecond timestamps; the
ambient `new Date()` of `classifyLevel3` becomes an explicit `now`
parameter.  `yearsOwned` is kept as the exact millisecond difference
(the JS float quotient divides it by `31 536 000 000`); the 5-year
comparison and `Math.floor` are computed exactly on it. -/

/-- Level verdicts. -/
inductive LevelScore where
  | good | bad | unknown | needs_lookup
deriving Repr, DecidableEq

/-- Overall verdicts. -/
inductive OverallScore where
  | good | review | bad
deriving Repr, DecidableEq

/-- The TS string literal for a plaintiff type (used in notes). -/
def plaintiffTypeStr : PlaintiffType → String
  | .bank => "bank"
  | .credit_union => "credit_union"
  | .mortgage_servicer => "mortgage_servicer"
  | .hoa => "hoa"
  | .llc => "llc"
  | .government => "government"
  | .individual => "individual"
  | .unknown => "unknown"

/-- `Level1Result`. -/
structure Level1Result where
  score : LevelScore
  plaintiff : PlaintiffInfo
  note : String
deriving Repr, DecidableEq

/-- `Level2Result`. -/
structure Level2Result where
  score : LevelScore
  defendant : DefendantInfo
  note : String
deriving Repr, DecidableEq

/-- `Level3Result` (`yearsOwnedMs` holds `now − purchaseDate`). -/
structure Level3Result where
  score : LevelScore
  note : String
  purchaseDate : Option Int := none
  yearsOwnedMs : Option Int := none
deriving Repr, DecidableEq

/-- `Level4Result`. -/
structure Level4Result where
  score : LevelScore
  note : String
  neighborhoodGrade : Option String := none
  bedCount : Option Int := none
  bathCount : Option Int := none
deriving Repr, DecidableEq

/-- `LeadClassification`. -/
structure LeadClassification where
  level1 : Level1Result
  level2 : Level2Result
  level3 : Level3Result
  level4 : Level4Result
  overallScore : OverallScore
  stopReason : Option String := none
  concerns : List String
deriving Repr, DecidableEq

/-- `classifyLevel1`. -/
def classifyLevel1 (plaintiff : PlaintiffInfo) : Level1Result :=
  if plaintiff.isGoodLead then
    { score := .good, plaintiff := plaintiff,
      note := plaintiffTypeStr plaintiff.type ++ " plaintiff (likely lender)" }
  else
    match plaintiff.type with
    | .hoa =>
      { score := .bad, plaintiff := plaintiff,
        note := "HOA plaintiff - not a foreclosure" }
    | .government =>
      { score := .bad, plaintiff := plaintiff,
        note := "Government plaintiff - likely tax or code enforcement" }
    | .llc =>
      { score := .bad, plaintiff := plaintiff,
        note := "LLC plaintiff - likely service/contractor lien" }
    | .unknown =>
      { score := .unknown, plaintiff := plaintiff,
        note := "Unable to determine plaintiff type" }
    | t =>
      { score := .unknown, plaintiff := plaintiff,
        note := "Plaintiff type: " ++ plaintiffTypeStr t }

/-- `classifyLevel2`. -/
def classifyLevel2 (defendant : DefendantInfo) : Level2Result :=
  if defendant.isGoodLead then
    { score := .good, defendant := defendant,
      note :=
        match defendant.type with
        | .individual => "Individual owner"
        | .couple => "Couple/family owners"
        | .trust => "Trust ownership (may need extra review)"
        | _ => "Owner appears to be an individual" }
  else
    { score := .bad, defendant := defendant,
      note :=
        if defendant.type = .llc then "LLC/Business owner - not a personal residence"
        else "Business entity owner" }

/-- Milliseconds of `1000 * 60 * 60 * 24 * 365`. -/
def yearMs : Int := 1000 * 60 * 60 * 24 * 365

/-- `classifyLevel3` (with the ambient clock made explicit). -/
def classifyLevel3 (now : Int) (purchaseDate : Option Int) : Level3Result :=
  match purchaseDate with
  | none =>
    { score := .needs_lookup, note := "Purchase date requires PVA lookup" }
  | some pd =>
    let diff := now - pd
    if diff ≥ 5 * yearMs then
      { score := .good,
        note := toString (Int.fdiv diff yearMs) ++
          " years of ownership - good equity potential",
        purchaseDate := some pd, yearsOwnedMs := some diff }
    else
      { score := .bad,
        note := "Only " ++ toString (Int.fdiv diff yearMs) ++
          " years of ownership - limited equity",
        purchaseDate := some pd, yearsOwnedMs := some diff }

/-- JS truthiness of an optional number (`0` is falsy). -/
def truthyNum (n : Option Int) : Bool :=
  match n with
  | none => false
  | some v => v ≠ 0

/-- JS truthiness of an optional string (`''` is falsy). -/
def truthyStr (s : Option String) : Bool :=
  match s with
  | none => false
  | some v => v ≠ ""

/-- Upper-case a string (ASCII range, as the source's grades are). -/
def ucString (s : String) : String := ⟨s.data.map ucChar⟩

/-- The good-grade list of `classifyLevel4`. -/
def goodGrades : List String := ["A+", "A", "A-", "B+", "B", "B-"]

/-- The bad-grade list of `classifyLevel4`. -/
def badGrades : List String := ["C+", "C", "C-", "D+", "D", "D-", "F"]

/-- `classifyLevel4`.  The guard `!neighborhoodGrade && !bedCount` uses
JS truthiness, so an empty grade or a zero bed count also count as
absent there; the later `bedCount !== undefined` check does not.  The
JS locals `score` and `notes` are tracked as separate bindings, one
update per branch. -/
def classifyLevel4 (neighborhoodGrade : Option String) (bedCount : Option Int) :
    Level4Result :=
  if !truthyStr neighborhoodGrade && !truthyNum bedCount then
    { score := .needs_lookup, note := "Property details require Zillow/PVA lookup" }
  else
    let gradeScore : LevelScore :=
      match neighborhoodGrade with
      | some g =>
        if g ≠ "" then
          if goodGrades.contains (ucString g) then .good
          else if badGrades.contains (ucString g) then .bad
          else .unknown
        else .unknown
      | none => .unknown
    let gradeNotes : List String :=
      match neighborhoodGrade with
      | some g =>
        if g ≠ "" then
          if goodGrades.contains (ucString g) then [ucString g ++ " neighborhood"]
          else if badGrades.contains (ucString g) then
            [ucString g ++ " neighborhood - below threshold"]
          else []
        else []
      | none => []
    let score1 : LevelScore :=
      match bedCount with
      | some b =>
        if 3 ≤ b ∧ b ≤ 5 then (if gradeScore ≠ .bad then .good else gradeScore)
        else gradeScore
      | none => gradeScore
    let notes1 : List String :=
      gradeNotes ++
      (match bedCount with
       | some b =>
         if 3 ≤ b ∧ b ≤ 5 then [toString b ++ " bedrooms"]
         else if b < 3 then ["Only " ++ toString b ++ " bedrooms"]
         else [toString b ++ " bedrooms (larger property)"]
       | none => [])
    let finalScore := if score1 = .unknown then LevelScore.needs_lookup else score1
    { score := finalScore,
      note :=
        if String.intercalate ", " notes1 = "" then "Partial property data available"
        else String.intercalate ", " notes1,
      neighborhoodGrade := neighborhoodGrade, bedCount := bedCount }

/-- Whether an optional neighborhood grade upper-cases into the good
set `{A+…B-}`. -/
def gradeIsGood (g : Option String) : Bool :=
  match g with
  | some s => goodGrades.contains (ucString s)
  | none => false

/-- Whether an optional neighborhood grade upper-cases into the bad
set `{C+…F}`. -/
def gradeIsBad (g : Option String) : Bool :=
  match g with
  | some s => badGrades.contains (ucString s)
  | none => false

/-- The optional `externalData` argument of `classifyLead`; an absent
object behaves as one with every field absent. -/
structure ExternalData where
  purchaseDate : Option Int := none
  neighborhoodGrade : Option String := none
  bedCount : Option Int := none
  bathCount : Option Int := none
deriving Repr, DecidableEq

/-- `classifyLead`: the 4-level pipeline with early termination on a
bad Level 1 or Level 2. -/
def classifyLead (now : Int) (parseResult : LisPendensParseResult)
    (externalData : ExternalData := {}) : LeadClassification :=
  let concerns := parseResult.plaintiff.concerns
  let level1 := classifyLevel1 parseResult.plaintiff
  if level1.score = .bad then
    { level1 := level1,
      level2 :=
        { score := .unknown, defendant := parseResult.defendant,
          note := "Skipped - Level 1 failed" },
      level3 := { score := .unknown, note := "Skipped - Level 1 failed" },
      level4 := { score := .unknown, note := "Skipped - Level 1 failed" },
      overallScore := .bad,
      stopReason := some ("Level 1: " ++ level1.note),
      concerns := concerns }
  else
    let level2 := classifyLevel2 parseResult.defendant
    if level2.score = .bad then
      { level1 := level1, level2 := level2,
        level3 := { score := .unknown, note := "Skipped - Level 2 failed" },
        level4 := { score := .unknown, note := "Skipped - Level 2 failed" },
        overallScore := .bad,
        stopReason := some ("Level 2: " ++ level2.note),
        concerns := concerns }
    else
      let level3 := classifyLevel3 now externalData.purchaseDate
      let level4a := classifyLevel4 externalData.neighborhoodGrade externalData.bedCount
      let level4 :=
        if truthyNum externalData.bathCount then
          { level4a with bathCount := externalData.bathCount }
        else level4a
      if level1.score = .unknown ∨ level2.score = .unknown ∨
          level3.score = .needs_lookup ∨ level4.score = .needs_lookup ∨
          level3.score = .unknown ∨ level4.score = .unknown then
        { level1 := level1, level2 := level2, level3 := level3, level4 := level4,
          overallScore := .review, concerns := concerns }
      else if level3.score ≠ .good ∨ level4.score ≠ .good then
        { level1 := level1, level2 := level2, level3 := level3, level4 := level4,
          overallScore := .review,
          concerns := concerns ++
            (if level3.score ≠ .good then ["Limited equity position"] else []) ++
            (if level4.score ≠ .good then ["Property quality concerns"] else []) }
      else
        { level1 := level1, level2 := level2, level3 := level3, level4 := level4,
          overallScore := .good, concerns := concerns }

/-! ### Lookup-link generation (`classifiers/lead-classifier.ts`) -/

/-- Characters `encodeURIComponent` leaves unescaped. -/
def uriUnreserved (c : Char) : Bool :=
  isAsciiAlpha c || isDigit c || c = '-' || c = '_' || c = '.' ||
  c = '!' || c = '~' || c = '*' || c = '\'' || c = '(' || c = ')'

/-- UTF-8 bytes of a character, as numbers below 256. -/
def utf8Bytes (c : Char) : List Nat :=
  let n := c.toNat
  if n < 0x80 then [n]
  else if n < 0x800 then [0xc0 + n / 64, 0x80 + n % 64]
  else if n < 0x10000 then
    [0xe0 + n / 4096, 0x80 + (n / 64) % 64, 0x80 + n % 64]
  else
    [0xf0 + n / 262144, 0x80 + (n / 4096) % 64, 0x80 + (n / 64) % 64, 0x80 + n % 64]

/-- Upper-case hexadecimal digit. -/
def hexDigit (n : Nat) : Char :=
  if n < 10 then Char.ofNat (48 + n) else Char.ofNat (55 + n)

/-- `encodeURIComponent`. -/
def encodeURIComponent (s : String) : String :=
  ⟨s.data.flatMap fun c =>
    if uriUnreserved c then [c]
    else (utf8Bytes c).flatMap fun b => ['%', hexDigit (b / 16), hexDigit (b % 16)]⟩

/-- `LookupLinks` as declared in `classifiers/lead-classifier.ts`. -/
structure LookupLinks where
  pva : String
  zillow : String
  googleMaps : String
deriving Repr, DecidableEq

/-- `generateLookupLinks` (`classifiers/lead-classifier.ts:91`): the
address is used whenever present, with no quality check. -/
def generateLookupLinks (address : Option ParsedAddress) (defendantName : String) :
    LookupLinks :=
  let encodedName := encodeURIComponent defendantName
  let encodedAddress :=
    match address with
    | some a => encodeURIComponent a.cleaned
    | none => ""
  { pva := "https://fayettepva.com/property-search?owner=" ++ encodedName,
    zillow :=
      match address with
      | some _ => "https://www.zillow.com/homes/" ++ encodedAddress ++ "_rb/"
      | none => "https://www.zillow.com/homes/?searchQueryState=\x7b\"usersSearchTerm\":\"" ++
          encodedName ++ "\"\x7d",
    googleMaps :=
      match address with
      | some _ => "https://www.google.com/maps/search/" ++ encodedAddress
      | none => "https://www.google.com/maps/search/" ++ encodedName }

/-! ## Slack notification formatter (`apps/backend/src/notifications/slack.ts`)

`Date`/float fields that are only rendered for display
(`toLocaleDateString`, `toFixed(1)`) are environment-dependent in JS
and are modelled by their rendered strings; every numeric field the
code compares or formats with grouping stays an integer. -/

/-- The class removed by the sanitizer:
`[\x00-\x08\x0B\x0C\x0E-\x1F\x7F]` (tab, LF and CR are not in it). -/
def removedCtl (c : Char) : Bool :=
  c.toNat ≤ 8 || c.toNat = 0x0b || c.toNat = 0x0c ||
  (0x0e ≤ c.toNat && c.toNat ≤ 0x1f) || c.toNat = 0x7f

/-- The degree-sign artifacts `[°º]`. -/
def isDegree (c : Char) : Bool := c.toNat = 0xb0 || c.toNat = 0xba

/-- State machine for `.replace(/  +/g, ' ')`: runs of two or more
literal spaces collapse to one space. -/
def collapseSpGo : WsSt → List Char → List Char
  | .normal, [] => []
  | .pend w, [] => [w]
  | .run, [] => []
  | .normal, c :: cs =>
    if c = ' ' then collapseSpGo (.pend c) cs else c :: collapseSpGo .normal cs
  | .pend w, c :: cs =>
    if c = ' ' then ' ' :: collapseSpGo .run cs else w :: c :: collapseSpGo .normal cs
  | .run, c :: cs =>
    if c = ' ' then collapseSpGo .run cs else c :: collapseSpGo .normal cs

/-- `split('\n')` (keeps empty pieces). -/
def splitNl : List Char → List (List Char)
  | [] => [[]]
  | c :: cs =>
    if c = '\n' then [] :: splitNl cs
    else
      match splitNl cs with
      | h :: t => (c :: h) :: t
      | [] => [[c]]

/-- `join('\n')` on character lists. -/
def joinNl : List (List Char) → List Char
  | [] => []
  | [l] => l
  | l :: ls => l ++ '\n' :: joinNl ls

/-- `join('\n')` on strings. -/
def strJoinNl (xs : List String) : String := ⟨joinNl (xs.map String.data)⟩

/-- `sanitizeSlackText`: drop the removed control class, replace degree
signs with spaces, collapse multiple spaces, trim every line, trim. -/
def sanitizeSlackText (s : String) : String :=
  let noCtl := s.data.filter fun c => !removedCtl c
  let noDeg := noCtl.map fun c => if isDegree c then ' ' else c
  let sp := collapseSpGo .normal noDeg
  ⟨trimL (joinNl ((splitNl sp).map trimL))⟩

/-- JS `slice(0, n)` for possibly negative `n`. -/
def jsSliceTo (l : List Char) (n : Int) : List Char :=
  if n ≥ 0 then l.take n.toNat
  else l.take (l.length - min (-n).toNat l.length)

/-- `truncateSlackText`: sanitize, and if still over the limit cut to
`maxLength - 3` and append an ellipsis. -/
def truncateSlackText (text : String) (maxLength : Nat) : String :=
  let sanitized := sanitizeSlackText text
  if sanitized.length ≤ maxLength then sanitized
  else ⟨jsSliceTo sanitized.data ((maxLength : Int) - 3) ++ "...".data⟩

/-- A Slack block (header with plain text and emoji flag, mrkdwn
section, or divider). -/
inductive SlackBlock where
  | header (text : String) (emoji : Bool)
  | section (text : String)
  | divider
deriving Repr, DecidableEq

/-- `createSectionBlock`. -/
def createSectionBlock (text : String) : SlackBlock :=
  .section (truncateSlackText text 3000)

/-- `createHeaderBlock`. -/
def createHeaderBlock (text : String) (emoji : Bool := true) : SlackBlock :=
  .header (truncateSlackText text 150) emoji

/-- `PvaData` (display-only `Date`/float fields carried as their
rendered strings). -/
structure PvaData where
  lastSaleDate : Option String := none
  lastSalePrice : Option Int := none
  yearsOwned : Option String := none
  assessedValue : Option Int := none
  landValue : Option Int := none
  improvementValue : Option Int := none
  bedrooms : Option Int := none
  bathrooms : Option Int := none
  squareFeet : Option Int := none
  yearBuilt : Option Int := none
  propertyType : Option String := none
  ownerName : Option String := none
  ownerAddress : Option String := none
  estimatedEquity : Option Int := none
  pvaUrl : Option String := none
  scrapedAt : String := ""
deriving Repr, DecidableEq

/-- The five-link `LookupLinks` shape consumed by the formatter. -/
structure LookupLinksFull where
  pva : String
  zillow : String
  googleMaps : String
  truePeopleSearch : String
  fastPeopleSearch : String
deriving Repr, DecidableEq

/-- `ClassifiedLead`. -/
structure ClassifiedLead where
  id : String
  pdfUrl : Option String := none
  propertyAddress : Option ParsedAddress
  mailingAddress : Option ParsedAddress
  plaintiff : PlaintiffInfo
  defendant : DefendantInfo
  classification : LeadClassification
  lookupLinks : LookupLinksFull
  pvaData : Option PvaData := none
  rawText : Option String := none
deriving Repr, DecidableEq

/-- Digit grouping of `toLocaleString` (en-US): commas every three
digits from the right. -/
def groupThrees : List Char → List Char
  | a :: b :: c :: d :: rest => a :: b :: c :: ',' :: groupThrees (d :: rest)
  | l => l

/-- `n.toLocaleString()` for integers. -/
def localeInt (n : Int) : String :=
  (if n < 0 then "-" else "") ++ ⟨(groupThrees n.natAbs.repr.data.reverse).reverse⟩

/-- `formatCurrency`. -/
def formatCurrency (amount : Option Int) : String :=
  match amount with
  | none => "N/A"
  | some n => "$" ++ localeInt n

/-- The TS string literal for a defendant type. -/
def defendantTypeStr : DefendantType → String
  | .individual => "individual"
  | .couple => "couple"
  | .trust => "trust"
  | .llc => "llc"
  | .unknown => "unknown"

/-- The TS string literal for an address quality. -/
def qualityStr : AddressQuality → String
  | .high => "high"
  | .medium => "medium"
  | .low => "low"

/-- `formatLeadForSlack`: the per-lead display text. -/
def formatLeadForSlack (lead : ClassifiedLead) : String :=
  let address := sanitizeSlackText
    (match lead.propertyAddress with
     | some a => if a.cleaned = "" then "Address not found" else a.cleaned
     | none => "Address not found")
  let qualityIndicator :=
    match lead.propertyAddress.map (·.quality) with
    | some .high => ":white_check_mark:"
    | some .medium => ":large_yellow_circle:"
    | _ => ":red_circle:"
  let line1 := "• *" ++ address ++ "* " ++
    (if lead.propertyAddress.isSome then qualityIndicator else "")
  let plaintiffName := sanitizeSlackText lead.plaintiff.name
  let defendantName := sanitizeSlackText lead.defendant.name
  let plaintiffType :=
    if lead.plaintiff.type ≠ .unknown then
      " (" ++ plaintiffTypeStr lead.plaintiff.type ++ ")"
    else ""
  let defendantType :=
    if lead.defendant.type ≠ .unknown then
      " (" ++ defendantTypeStr lead.defendant.type ++ ")"
    else ""
  let partyLines :=
    ["  Plaintiff: " ++ plaintiffName ++ plaintiffType,
     "  Defendant: " ++ defendantName ++ defendantType]
  let mailingLines :=
    match lead.mailingAddress with
    | some m =>
      if (lead.propertyAddress.map (·.cleaned)) ≠ some m.cleaned then
        ["  Mailing: " ++ m.cleaned]
      else []
    | none => []
  let pvaLines :=
    match lead.pvaData with
    | none => []
    | some pva =>
      let equityParts :=
        (match pva.yearsOwned with
         | some y => [y ++ " years owned"]
         | none => []) ++
        (match pva.estimatedEquity with
         | some e =>
           ["Est. equity: " ++ (if e ≥ 50000 then ":moneybag:" else ":money_with_wings:") ++
            " " ++ formatCurrency (some e)]
         | none => [])
      let equityLines :=
        if equityParts ≠ [] then ["  " ++ String.intercalate " | " equityParts] else []
      let saleLines :=
        if truthyStr pva.lastSaleDate || truthyNum pva.lastSalePrice then
          let saleParts :=
            (match pva.lastSaleDate with
             | some d => if d ≠ "" then ["Purchased: " ++ d] else []
             | none => []) ++
            (if truthyNum pva.lastSalePrice then
              ["for " ++ formatCurrency pva.lastSalePrice] else []) ++
            (if truthyNum pva.assessedValue then
              ["(Assessed: " ++ formatCurrency pva.assessedValue ++ ")"] else [])
          ["  " ++ String.intercalate " " saleParts]
        else []
      let propertyParts :=
        (if truthyNum pva.bedrooms then [toString (pva.bedrooms.getD 0) ++ " bed"] else []) ++
        (if truthyNum pva.bathrooms then [toString (pva.bathrooms.getD 0) ++ " bath"] else []) ++
        (if truthyNum pva.squareFeet then [localeInt (pva.squareFeet.getD 0) ++ " sqft"] else []) ++
        (if truthyNum pva.yearBuilt then ["built " ++ toString (pva.yearBuilt.getD 0)] else [])
      let propertyLines :=
        if propertyParts ≠ [] then ["  :house: " ++ String.intercalate " | " propertyParts]
        else []
      equityLines ++ saleLines ++ propertyLines
  let concernLines := lead.classification.concerns.map fun c => "  :warning: " ++ c
  let hasGoodAddress :=
    match lead.propertyAddress with
    | some p => p.quality = .high || p.quality = .medium
    | none => false
  let linkLines :=
    ["  " ++ String.intercalate " | "
        ["<" ++ lead.lookupLinks.zillow ++ "|Zillow>",
         "<" ++ lead.lookupLinks.googleMaps ++ "|Maps>",
         "<" ++ lead.lookupLinks.pva ++ "|PVA>"],
     "  :telephone_receiver: " ++ String.intercalate " | "
        ["<" ++ lead.lookupLinks.truePeopleSearch ++ "|TruePeople>",
         "<" ++ lead.lookupLinks.fastPeopleSearch ++ "|FastPeople>"]] ++
    (if !hasGoodAddress then
      ["  _:information_source: Links based on defendant name (address quality: " ++
       (match lead.propertyAddress with
        | some p => qualityStr p.quality
        | none => "none") ++ ")_"]
     else [])
  strJoinNl
    ([line1] ++ partyLines ++ mailingLines ++ pvaLines ++ concernLines ++ linkLines)

/-- `formatFilteredLeadForSlack` (short form for filtered-out leads). -/
def formatFilteredLeadForSlack (lead : ClassifiedLead) : String :=
  let reason := sanitizeSlackText
    (match lead.classification.stopReason with
     | some r => if r ≠ "" then r else "Unknown reason"
     | none => "Unknown reason")
  let name := sanitizeSlackText
    (if lead.defendant.name ≠ "" then lead.defendant.name
     else if lead.plaintiff.name ≠ "" then lead.plaintiff.name
     else lead.id)
  "• " ++ reason ++ ": " ++ name

/-- `groupLeadsByScore`. -/
def groupLeadsByScore (leads : List ClassifiedLead) :
    List ClassifiedLead × List ClassifiedLead × List ClassifiedLead :=
  (leads.filter fun l => l.classification.overallScore = .good,
   leads.filter fun l => l.classification.overallScore = .review,
   leads.filter fun l => l.classification.overallScore = .bad)

/-- The lead-packing loop of `addLeadBlocks`: append each lead's text
to the running buffer, flushing a section block whenever the buffer
would exceed `SECTION_TEXT − 100`. -/
def addLeadBlocksGo (formatter : ClassifiedLead → String) (separator : String)
    (blocks : List SlackBlock) (currentText : String) :
    List ClassifiedLead → List SlackBlock
  | [] =>
    if currentText ≠ "" then blocks ++ [createSectionBlock currentText] else blocks
  | lead :: rest =>
    let leadText := sanitizeSlackText (formatter lead)
    let potentialText :=
      if currentText ≠ "" then currentText ++ separator ++ leadText else leadText
    if potentialText.length > 3000 - 100 then
      addLeadBlocksGo formatter separator
        (if currentText ≠ "" then blocks ++ [createSectionBlock currentText] else blocks)
        leadText rest
    else
      addLeadBlocksGo formatter separator blocks potentialText rest

/-- `addLeadBlocks` (returns the extended block list). -/
def addLeadBlocks (blocks : List SlackBlock) (leads : List ClassifiedLead)
    (formatter : ClassifiedLead → String) (separator : String := "\n\n") :
    List SlackBlock :=
  if leads.isEmpty then blocks
  else addLeadBlocksGo formatter separator blocks "" leads

/-- The `{text, blocks}` result of `formatLeadsForSlack`. -/
structure SlackMessage where
  text : String
  blocks : List SlackBlock
deriving Repr, DecidableEq

/-- The block list assembled by `formatLeadsForSlack` before the final
block-count cap: header, summary, divider, then one section-headed,
lead-packed region per nonempty group. -/
def formatLeadsBlocksRaw (todayStr : String) (leads : List ClassifiedLead) :
    List SlackBlock :=
  let grouped := groupLeadsByScore leads
  let good := grouped.1
  let review := grouped.2.1
  let bad := grouped.2.2
  let blocks0 := [createHeaderBlock ("Lis Pendens Report - " ++ todayStr)]
  let summaryText := "Found *" ++ toString leads.length ++ "* leads: " ++
    ":white_check_mark: " ++ toString good.length ++ " good | " ++
    ":eyes: " ++ toString review.length ++ " need review | " ++
    ":x: " ++ toString bad.length ++ " filtered out"
  let blocks1 := blocks0 ++ [createSectionBlock summaryText, SlackBlock.divider]
  let blocks2 :=
    if good.length > 0 then
      (addLeadBlocks
        (blocks1 ++ [createSectionBlock
          (":white_check_mark: *Good Leads (" ++ toString good.length ++ ")*")])
        good formatLeadForSlack) ++ [SlackBlock.divider]
    else blocks1
  let blocks3 :=
    if review.length > 0 then
      (addLeadBlocks
        (blocks2 ++ [createSectionBlock
          (":eyes: *Needs Review (" ++ toString review.length ++ ")*")])
        review formatLeadForSlack) ++ [SlackBlock.divider]
    else blocks2
  if bad.length > 0 then
    addLeadBlocks
      (blocks3 ++ [createSectionBlock
        (":x: *Filtered Out (" ++ toString bad.length ++ ")*")])
      bad formatFilteredLeadForSlack "\n"
  else blocks3

/-- `formatLeadsForSlack` (the ambient `new Date().toLocaleDateString()`
of the report header is the explicit `todayStr` parameter). -/
def formatLeadsForSlack (todayStr : String) (leads : List ClassifiedLead) :
    SlackMessage :=
  let grouped := groupLeadsByScore leads
  let blocks4 := formatLeadsBlocksRaw todayStr leads
  let blocks5 := if blocks4.length > 50 then blocks4.take 50 else blocks4
  let fallbackText := "Lis Pendens Report: " ++ toString grouped.1.length ++ " good, " ++
    toString grouped.2.1.length ++ " review, " ++ toString grouped.2.2.length ++ " filtered"
  { text := fallbackText, blocks := blocks5 }

/-! ## Statement-level definitions for the claim theorems -/

/-- A block respects the per-kind Slack character ceilings. -/
def goodBlock : SlackBlock → Bool
  | .section t => t.length ≤ 3000
  | .header t _ => t.length ≤ 150
  | .divider => true

/-- The binding Slack contract: at most 50 blocks, every section text
at most 3000 characters, every header text at most 150. -/
def blocksWithinLimits (bs : List SlackBlock) : Bool :=
  decide (bs.length ≤ 50) && bs.all goodBlock

/-- A low-quality parsed address (as produced for `"south of Main"`). -/
def lowQualityAddr : ParsedAddress :=
  { raw := "south of Main", cleaned := "south of Main", score := 0,
    quality := .low, isLikelyAddress := false,
    reasons := ["matched_non_address_phrase"] }

/-- Fixture: an HOA plaintiff (bad at Level 1). -/
def fixPlaintiffHoa : PlaintiffInfo :=
  { name := "Oakwood HOA", type := .hoa, isGoodLead := false, concerns := [] }

/-- Fixture: a bank plaintiff (good at Level 1). -/
def fixPlaintiffBank : PlaintiffInfo :=
  { name := "Wells Fargo Bank", type := .bank, isGoodLead := true, concerns := [] }

/-- Fixture: an individual defendant (good at Level 2). -/
def fixDefendantInd : DefendantInfo :=
  { name := "John Smith", type := .individual, isGoodLead := true }

/-- Fixture: an LLC defendant (bad at Level 2). -/
def fixDefendantLlc : DefendantInfo :=
  { name := "ABC Properties LLC", type := .llc, isGoodLead := false }

/-- Fixture: parse result with an HOA plaintiff. -/
def fixParseHoa : LisPendensParseResult :=
  { plaintiff := fixPlaintiffHoa, defendant := fixDefendantInd,
    propertyAddress := none, mailingAddress := none, allAddresses := [],
    rawText := "" }

/-- Fixture: parse result with a bank plaintiff and an LLC defendant. -/
def fixParseLlc : LisPendensParseResult :=
  { plaintiff := fixPlaintiffBank, defendant := fixDefendantLlc,
    propertyAddress := none, mailingAddress := none, allAddresses := [],
    rawText := "" }

/-- Fixture: parse result with a bank plaintiff and individual
defendant (good at Levels 1 and 2). -/
def fixParseGood : LisPendensParseResult :=
  { plaintiff := fixPlaintiffBank, defendant := fixDefendantInd,
    propertyAddress := none, mailingAddress := none, allAddresses := [],
    rawText := "" }

/-- Fixture: a classified lead with no parsed property address. -/
def fixLeadNoAddr : ClassifiedLead :=
  { id := "24-CI-000001",
    propertyAddress := none,
    mailingAddress := none,
    plaintiff := fixPlaintiffBank,
    defendant := fixDefendantInd,
    classification := classifyLead 0 fixParseGood,
    lookupLinks :=
      { pva := "", zillow := "", googleMaps := "",
        truePeopleSearch := "", fastPeopleSearch := "" } }

/-- A high-quality parsed address fixture. -/
def highQualityAddr : ParsedAddress :=
  { raw := "123 Main St, Lexington, KY 40502",
    cleaned := "123 Main St, Lexington, KY 40502",
    score := 90, quality := .high, isLikelyAddress := true, reasons := [] }

/-- Fixture: the no-address lead, with a high-quality property address. -/
def fixLeadGoodAddr : ClassifiedLead :=
  { fixLeadNoAddr with propertyAddress := some highQualityAddr }

/-! ## Properties of `normalizeWhitespace` -/

/-- Two adjacent characters are not both whitespace. -/
def wsR (a b : Char) : Prop := ¬(jsWs a = true ∧ jsWs b = true)

/-- The head of the list, if any, is not whitespace. -/
def headNotWs (l : List Char) : Prop :=
  ∀ c, l.head? = some c → jsWs c = false

theorem headNotWs_nil : headNotWs [] := by intro c h; simp at h

theorem headNotWs_cons {c : Char} {l : List Char} (h : jsWs c = false) :
    headNotWs (c :: l) := by
  intro d hd
  simp only [List.head?_cons, Option.some_inj] at hd
  exact hd ▸ h

theorem stripNlGo_no_crlf (l : List Char) :
    ∀ b, ∀ c ∈ stripNlGo b l, isCrLf c = false := by
  induction l with
  | nil => intro b c hc; simp [stripNlGo] at hc
  | cons a l ih =>
    intro b c hc
    by_cases ha : isCrLf a = true
    · cases b with
      | true =>
        simp only [stripNlGo, ha, if_true, ite_true] at hc
        exact ih _ _ hc
      | false =>
        simp only [stripNlGo, ha, if_true, ite_true, Bool.false_eq_true, ite_false,
          List.mem_cons] at hc
        rcases hc with rfl | hc
        · rfl
        · exact ih _ _ hc
    · simp only [stripNlGo, if_neg ha, List.mem_cons] at hc
      rcases hc with rfl | hc
      · exact Bool.not_eq_true _ ▸ ha
      · exact ih _ _ hc

theorem collapseWsGo_mem (l : List Char) :
    ∀ st c, c ∈ collapseWsGo st l →
      c = ' ' ∨ c ∈ l ∨ ∃ w, st = WsSt.pend w ∧ c = w := by
  induction l with
  | nil =>
    intro st c hc
    cases st with
    | normal => simp [collapseWsGo] at hc
    | pend w =>
      simp only [collapseWsGo, List.mem_singleton] at hc
      exact Or.inr (Or.inr ⟨w, rfl, hc⟩)
    | run => simp [collapseWsGo] at hc
  | cons a l ih =>
    intro st c hc
    cases st with
    | normal =>
      simp only [collapseWsGo] at hc
      by_cases ha : jsWs a = true
      · rw [if_pos ha] at hc
        rcases ih _ _ hc with h | h | ⟨w, hw, rfl⟩
        · exact Or.inl h
        · exact Or.inr (Or.inl (List.mem_cons_of_mem _ h))
        · cases hw; exact Or.inr (Or.inl (List.mem_cons_self _ _))
      · rw [if_neg ha] at hc
        rcases List.mem_cons.mp hc with rfl | hc
        · exact Or.inr (Or.inl (List.mem_cons_self _ _))
        · rcases ih _ _ hc with h | h | ⟨w, hw, _⟩
          · exact Or.inl h
          · exact Or.inr (Or.inl (List.mem_cons_of_mem _ h))
          · cases hw
    | pend w =>
      simp only [collapseWsGo] at hc
      by_cases ha : jsWs a = true
      · rw [if_pos ha] at hc
        rcases List.mem_cons.mp hc with rfl | hc
        · exact Or.inl rfl
        · rcases ih _ _ hc with h | h | ⟨w', hw, _⟩
          · exact Or.inl h
          · exact Or.inr (Or.inl (List.mem_cons_of_mem _ h))
          · cases hw
      · rw [if_neg ha] at hc
        rcases List.mem_cons.mp hc with rfl | hc
        · exact Or.inr (Or.inr ⟨_, rfl, rfl⟩)
        · rcases List.mem_cons.mp hc with rfl | hc
          · exact Or.inr (Or.inl (List.mem_cons_self _ _))
          · rcases ih _ _ hc with h | h | ⟨w', hw, _⟩
            · exact Or.inl h
            · exact Or.inr (Or.inl (List.mem_cons_of_mem _ h))
            · cases hw
    | run =>
      simp only [collapseWsGo] at hc
      by_cases ha : jsWs a = true
      · rw [if_pos ha] at hc
        rcases ih _ _ hc with h | h | ⟨w', hw, _⟩
        · exact Or.inl h
        · exact Or.inr (Or.inl (List.mem_cons_of_mem _ h))
        · cases hw
      · rw [if_neg ha] at hc
        rcases List.mem_cons.mp hc with rfl | hc
        · exact Or.inr (Or.inl (List.mem_cons_self _ _))
        · rcases ih _ _ hc with h | h | ⟨w', hw, _⟩
          · exact Or.inl h
          · exact Or.inr (Or.inl (List.mem_cons_of_mem _ h))
          · cases hw

theorem collapseWsGo_chain (l : List Char) :
    (headNotWs (collapseWsGo .run l) ∧ List.Chain' wsR (collapseWsGo .run l)) ∧
    List.Chain' wsR (collapseWsGo .normal l) ∧
    (∀ w, List.Chain' wsR (collapseWsGo (.pend w) l)) := by
  induction l with
  | nil =>
    refine ⟨⟨headNotWs_nil, ?_⟩, ?_, fun w => ?_⟩ <;> simp [collapseWsGo]
  | cons a l ih =>
    obtain ⟨⟨hruhd, hruch⟩, hnoch, hpech⟩ := ih
    by_cases ha : jsWs a = true
    · refine ⟨⟨?_, ?_⟩, ?_, fun w => ?_⟩
      · simpa only [collapseWsGo, if_pos ha] using hruhd
      · simpa only [collapseWsGo, if_pos ha] using hruch
      · simpa only [collapseWsGo, if_pos ha] using hpech a
      · simp only [collapseWsGo, if_pos ha]
        refine List.chain'_cons'.mpr ⟨?_, hruch⟩
        intro y hy
        exact fun hand => by rw [hruhd y hy] at hand; exact Bool.false_ne_true hand.2
    · refine ⟨⟨?_, ?_⟩, ?_, fun w => ?_⟩
      · simp only [collapseWsGo, if_neg ha]
        exact headNotWs_cons (Bool.not_eq_true _ ▸ ha)
      · simp only [collapseWsGo, if_neg ha]
        refine List.chain'_cons'.mpr ⟨?_, hnoch⟩
        intro y _
        exact fun hand => ha hand.1
      · simp only [collapseWsGo, if_neg ha]
        refine List.chain'_cons'.mpr ⟨?_, hnoch⟩
        intro y _
        exact fun hand => ha hand.1
      · simp only [collapseWsGo, if_neg ha]
        refine List.chain'_cons'.mpr ⟨?_, ?_⟩
        · intro y hy
          have hya : a = y := by
            simpa using hy
          exact fun hand => ha (hya ▸ hand.2)
        · refine List.chain'_cons'.mpr ⟨?_, hnoch⟩
          intro y _
          exact fun hand => ha hand.1

theorem collapseWsGo_normal_id (l : List Char) (h : List.Chain' wsR l) :
    collapseWsGo .normal l = l ∧
    (∀ w, headNotWs l → collapseWsGo (.pend w) l = w :: l) := by
  induction l with
  | nil => exact ⟨rfl, fun w _ => rfl⟩
  | cons a l ih =>
    have hrel : ∀ y ∈ l.head?, wsR a y := List.chain'_cons'.mp h |>.1
    have hch : List.Chain' wsR l := List.chain'_cons'.mp h |>.2
    obtain ⟨ihn, ihp⟩ := ih hch
    constructor
    · by_cases ha : jsWs a = true
      · have hhd : headNotWs l := by
          intro c hc
          have := hrel c hc
          unfold wsR at this
          cases hb : jsWs c
          · rfl
          · exact absurd ⟨ha, hb⟩ this
        simp only [collapseWsGo, if_pos ha]
        exact ihp a hhd
      · simp only [collapseWsGo, if_neg ha, ihn]
    · intro w hhd
      have ha : jsWs a = false := hhd a rfl
      simp only [collapseWsGo, ha, Bool.false_eq_true, if_false, ihn]

theorem chain'_wsR_reverse {l : List Char} (h : List.Chain' wsR l) :
    List.Chain' wsR l.reverse := by
  rw [List.chain'_reverse]
  exact h.imp (fun a b hab => fun hand => hab ⟨hand.2, hand.1⟩)

theorem chain'_trimL {l : List Char} (h : List.Chain' wsR l) :
    List.Chain' wsR (trimL l) := by
  unfold trimL
  apply chain'_wsR_reverse
  exact (chain'_wsR_reverse (h.suffix (List.dropWhile_suffix _))).suffix
    (List.dropWhile_suffix _)

theorem headNotWs_dropWhile (l : List Char) :
    headNotWs (l.dropWhile jsWs) := by
  induction l with
  | nil => exact headNotWs_nil
  | cons a l ih =>
    by_cases ha : jsWs a = true
    · simpa [List.dropWhile_cons, ha] using ih
    · simp only [List.dropWhile_cons, ha, Bool.false_eq_true, if_false]
      exact headNotWs_cons (Bool.not_eq_true _ ▸ ha)

theorem dropWhile_id_of_headNotWs {l : List Char} (h : headNotWs l) :
    l.dropWhile jsWs = l := by
  cases l with
  | nil => rfl
  | cons a l => simp [List.dropWhile_cons, h a rfl]

/-- `trimL` produces a sublist of its input. -/
theorem trimL_sublist (l : List Char) : (trimL l).Sublist l := by
  unfold trimL
  have h1 := ((List.dropWhile_suffix (l := (l.dropWhile jsWs).reverse)
    (p := jsWs)).sublist).reverse
  rw [List.reverse_reverse] at h1
  exact h1.trans (List.dropWhile_suffix _).sublist


theorem trimL_isPrefix (l : List Char) : trimL l <+: l.dropWhile jsWs := by
  unfold trimL
  have h := List.reverse_prefix.mpr
    (List.dropWhile_suffix (l := (l.dropWhile jsWs).reverse) (p := jsWs))
  rwa [List.reverse_reverse] at h

theorem trimL_headNotWs (l : List Char) : headNotWs (trimL l) := by
  intro c hc
  obtain ⟨t, ht⟩ := trimL_isPrefix l
  cases htl : trimL l with
  | nil => rw [htl] at hc; simp at hc
  | cons x xs =>
    rw [htl] at hc ht
    simp only [List.head?_cons, Option.some_inj] at hc
    have hd : (l.dropWhile jsWs).head? = some x := by
      rw [← ht]; rfl
    rw [hc] at hd
    exact headNotWs_dropWhile l c hd

theorem trimL_lastNotWs (l : List Char) :
    ∀ c, (trimL l).getLast? = some c → jsWs c = false := by
  intro c hc
  have hrev : (trimL l).reverse = (l.dropWhile jsWs).reverse.dropWhile jsWs := by
    unfold trimL
    rw [List.reverse_reverse]
  have hh : (trimL l).reverse.head? = some c := by
    rw [List.head?_reverse]
    exact hc
  rw [hrev] at hh
  exact headNotWs_dropWhile _ c hh

theorem trimL_id {l : List Char} (h1 : headNotWs l)
    (h2 : ∀ c, l.getLast? = some c → jsWs c = false) : trimL l = l := by
  unfold trimL
  rw [dropWhile_id_of_headNotWs h1]
  have hrl : headNotWs l.reverse := by
    intro c hc
    rw [List.head?_reverse] at hc
    exact h2 c hc
  rw [dropWhile_id_of_headNotWs hrl, List.reverse_reverse]

theorem stripNlGo_id {l : List Char} (h : ∀ c ∈ l, isCrLf c = false) :
    ∀ b, stripNlGo b l = l := by
  induction l with
  | nil => intro b; rfl
  | cons a l ih =>
    intro b
    have ha : isCrLf a = false := h a (List.mem_cons_self _ _)
    have hl : ∀ c ∈ l, isCrLf c = false := fun c hc => h c (List.mem_cons_of_mem _ hc)
    simp only [stripNlGo, ha, Bool.false_eq_true, if_false, ih hl]

/-- The data produced by `normalizeWhitespace` contains no CR or LF,
has no two adjacent whitespace characters, and starts and ends with a
non-whitespace character (if nonempty). -/
theorem normalizeWhitespace_shape (s : String) :
    (∀ c ∈ (normalizeWhitespace s).data, isCrLf c = false) ∧
    List.Chain' wsR (normalizeWhitespace s).data ∧
    headNotWs (normalizeWhitespace s).data ∧
    (∀ c, (normalizeWhitespace s).data.getLast? = some c → jsWs c = false) := by
  have hdata : (normalizeWhitespace s).data = trimL (collapseWs (stripNl s.data)) := rfl
  refine ⟨?_, ?_, ?_, ?_⟩
  · intro c hc
    rw [hdata] at hc
    have hc2 : c ∈ collapseWs (stripNl s.data) := (trimL_sublist _).subset hc
    rcases collapseWsGo_mem _ _ _ hc2 with rfl | h | ⟨w, hw, _⟩
    · rfl
    · exact stripNlGo_no_crlf _ _ _ h
    · cases hw
  · rw [hdata]
    exact chain'_trimL (collapseWsGo_chain (stripNl s.data)).2.1
  · rw [hdata]
    exact trimL_headNotWs _
  · rw [hdata]
    exact trimL_lastNotWs _

theorem normalizeWhitespace_idem (s : String) :
    normalizeWhitespace (normalizeWhitespace s) = normalizeWhitespace s := by
  obtain ⟨hcr, hch, hhd, hlast⟩ := normalizeWhitespace_shape s
  have h1 : stripNl (normalizeWhitespace s).data = (normalizeWhitespace s).data :=
    stripNlGo_id hcr false
  have h2 : collapseWs (normalizeWhitespace s).data = (normalizeWhitespace s).data :=
    (collapseWsGo_normal_id _ hch).1
  have h3 : trimL (normalizeWhitespace s).data = (normalizeWhitespace s).data :=
    trimL_id hhd hlast
  show String.mk (trimL (collapseWs (stripNl (normalizeWhitespace s).data))) =
    normalizeWhitespace s
  rw [h1, h2, h3]

/-! ## Claim theorems -/

/-- **C8.** For all text `T`, `normalizeWhitespace` is idempotent, and
its result contains no carriage return, no run of two or more
consecutive whitespace characters, and no leading or trailing
whitespace. -/
theorem claim_C8 (T : String) :
    normalizeWhitespace (normalizeWhitespace T) = normalizeWhitespace T ∧
    (∀ c ∈ (normalizeWhitespace T).data, c ≠ '\r') ∧
    List.Chain' wsR (normalizeWhitespace T).data ∧
    headNotWs (normalizeWhitespace T).data ∧
    (∀ c, (normalizeWhitespace T).data.getLast? = some c → jsWs c = false) := by
  obtain ⟨hcr, hch, hhd, hlast⟩ := normalizeWhitespace_shape T
  refine ⟨normalizeWhitespace_idem T, ?_, hch, hhd, hlast⟩
  intro c hc heq
  have h := hcr c hc
  rw [heq] at h
  simp [isCrLf] at h

/-- Witness for C8 at a concrete input. -/
theorem claim_C8_witness :
    '\r' ∉ (normalizeWhitespace " a\r\nb  c ").data ∧ jsWs 'c' = false :=
  ⟨fun h => (claim_C8 " a\r\nb  c ").2.1 '\r' h rfl,
   (claim_C8 " a\r\nb  c ").2.2.2.2 'c' (by decide)⟩

/-- **C10.** Level 2 returns `good` exactly when the defendant's
`isGoodLead` flag is set and `bad` otherwise; it can never return
`unknown` or `needs_lookup`. -/
theorem claim_C10 (d : DefendantInfo) :
    (classifyLevel2 d).score = (if d.isGoodLead then .good else .bad) ∧
    (classifyLevel2 d).score ≠ .unknown ∧
    (classifyLevel2 d).score ≠ .needs_lookup := by
  by_cases h : d.isGoodLead <;> simp [classifyLevel2, h]

/-- **C6 (counterexample).** The claim says Level 4 returns `good`
whenever the bed count is in `[3,5]`, and `bad` whenever the grade is
in `{C+…F}`; at grade `"C"` with 4 beds the code returns `bad`, so the
good-clause is false as stated. -/
theorem claim_C6_counterexample :
    (classifyLevel4 (some "C") (some 4)).score = .bad ∧
    (3 ≤ (4 : Int) ∧ (4 : Int) ≤ 5) ∧ gradeIsBad (some "C") = true := by
  constructor
  · rfl
  · exact ⟨⟨by norm_num, by norm_num⟩, rfl⟩

/-- The good and bad grade sets are disjoint. -/
theorem grade_sets_disjoint (u : String) :
    goodGrades.contains u = true → badGrades.contains u = true → False := by
  intro h1 h2
  have h1m : u ∈ goodGrades := by simpa using h1
  have h2m : u ∈ badGrades := by simpa using h2
  unfold goodGrades at h1m
  unfold badGrades at h2m
  simp only [List.mem_cons, List.mem_singleton, List.not_mem_nil, or_false] at h1m h2m
  rcases h1m with rfl | rfl | rfl | rfl | rfl | rfl <;> simp at h2m

/-- The score of `classifyLevel4` as a decision chain: lookup sentinel
on the falsy guard, then good grade, then bad grade, then the bed-count
range, then `needs_lookup`. -/
theorem classifyLevel4_score_eq (g : Option String) (b : Option Int) :
    (classifyLevel4 g b).score =
      (if (!truthyStr g && !truthyNum b) = true then .needs_lookup
       else if gradeIsGood g then .good
       else if gradeIsBad g then .bad
       else if (match b with
                | some n => decide (3 ≤ n ∧ n ≤ 5)
                | none => false) then .good
       else .needs_lookup) := by
  unfold classifyLevel4 gradeIsGood gradeIsBad
  rcases g with _ | s <;> rcases b with _ | n
  · simp [truthyStr, truthyNum]
  · by_cases hz : n = 0
    · subst hz
      simp [truthyStr, truthyNum, apply_ite Level4Result.score]
    · by_cases hin : 3 ≤ n ∧ n ≤ 5
      · simp [truthyStr, truthyNum, hz, hin, apply_ite Level4Result.score]
      · by_cases hlt : n < 3 <;>
          simp [truthyStr, truthyNum, hz, hin, hlt, apply_ite Level4Result.score]
  · by_cases hs : s = ""
    · subst hs
      simp [truthyStr, truthyNum, ucString, goodGrades, badGrades,
        apply_ite Level4Result.score]
    · by_cases hgg : ucString s ∈ goodGrades
      · simp [truthyStr, truthyNum, hs, hgg, apply_ite Level4Result.score]
      · by_cases hgb : ucString s ∈ badGrades <;>
          simp [truthyStr, truthyNum, hs, hgg, hgb, apply_ite Level4Result.score]
  · by_cases hs : s = ""
    · subst hs
      by_cases hz : n = 0
      · subst hz
        simp [truthyStr, truthyNum, ucString, goodGrades, badGrades,
          apply_ite Level4Result.score]
      · by_cases hin : 3 ≤ n ∧ n ≤ 5
        · simp [truthyStr, truthyNum, ucString, goodGrades, badGrades, hz, hin,
            apply_ite Level4Result.score]
        · by_cases hlt : n < 3 <;>
            simp [truthyStr, truthyNum, ucString, goodGrades, badGrades, hz, hin, hlt,
              apply_ite Level4Result.score]
    · by_cases hgg : ucString s ∈ goodGrades
      · by_cases hin : 3 ≤ n ∧ n ≤ 5
        · simp [truthyStr, truthyNum, hs, hgg, hin, apply_ite Level4Result.score]
        · by_cases hlt : n < 3 <;>
            simp [truthyStr, truthyNum, hs, hgg, hin, hlt, apply_ite Level4Result.score]
      · by_cases hgb : ucString s ∈ badGrades
        · by_cases hin : 3 ≤ n ∧ n ≤ 5
          · simp [truthyStr, truthyNum, hs, hgg, hgb, hin, apply_ite Level4Result.score]
          · by_cases hlt : n < 3 <;>
              simp [truthyStr, truthyNum, hs, hgg, hgb, hin, hlt,
                apply_ite Level4Result.score]
        · by_cases hin : 3 ≤ n ∧ n ≤ 5
          · simp [truthyStr, truthyNum, hs, hgg, hgb, hin, apply_ite Level4Result.score]
          · by_cases hlt : n < 3 <;>
              simp [truthyStr, truthyNum, hs, hgg, hgb, hin, hlt,
                apply_ite Level4Result.score]

/-- **C6 (amended).** Level 4 returns `good` when the grade is in
`{A+…B-}`, or when the bed count is in `[3,5]` and the grade is not in
`{C+…F}`; it returns `bad` whenever the grade is in `{C+…F}`; it
returns the `needs_lookup` sentinel when both data are JS-falsy; and it
returns `needs_lookup` when the grade decides nothing and the bed count
is out of range. -/
theorem claim_C6 (g : Option String) (b : Option Int) :
    (gradeIsGood g = true → (classifyLevel4 g b).score = .good) ∧
    (gradeIsBad g = true → (classifyLevel4 g b).score = .bad) ∧
    (gradeIsBad g = false → (∃ n, b = some n ∧ 3 ≤ n ∧ n ≤ 5) →
      (classifyLevel4 g b).score = .good) ∧
    ((!truthyStr g && !truthyNum b) = true →
      classifyLevel4 g b =
        { score := .needs_lookup,
          note := "Property details require Zillow/PVA lookup" }) ∧
    (gradeIsGood g = false → gradeIsBad g = false →
      (∀ n, b = some n → ¬(3 ≤ n ∧ n ≤ 5)) →
      (!truthyStr g && !truthyNum b) = false →
      (classifyLevel4 g b).score = .needs_lookup) := by
  have hsc := classifyLevel4_score_eq g b
  have hfalsy_good : (!truthyStr g && !truthyNum b) = true → gradeIsGood g = false := by
    intro h
    rcases g with _ | s
    · rfl
    · have hs : s = "" := by
        simp only [truthyStr, Bool.and_eq_true, Bool.not_eq_true',
          decide_eq_false_iff_not, not_not] at h
        exact h.1
      subst hs
      simp [gradeIsGood, ucString, goodGrades]
  have hfalsy_bad : (!truthyStr g && !truthyNum b) = true → gradeIsBad g = false := by
    intro h
    rcases g with _ | s
    · rfl
    · have hs : s = "" := by
        simp only [truthyStr, Bool.and_eq_true, Bool.not_eq_true',
          decide_eq_false_iff_not, not_not] at h
        exact h.1
      subst hs
      simp [gradeIsBad, ucString, badGrades]
  refine ⟨?_, ?_, ?_, ?_, ?_⟩
  · intro hgood
    rw [hsc]
    have hguard : (!truthyStr g && !truthyNum b) = false := by
      by_contra hc
      have h := hfalsy_good (by simpa using hc)
      rw [hgood] at h
      cases h
    simp [hguard, hgood]
  · intro hbad
    rw [hsc]
    have hguard : (!truthyStr g && !truthyNum b) = false := by
      by_contra hc
      have h := hfalsy_bad (by simpa using hc)
      rw [hbad] at h
      cases h
    have hgood : gradeIsGood g = false := by
      by_contra hc
      rcases g with _ | s
      · cases hbad
      · exact grade_sets_disjoint (ucString s)
          (by simpa [gradeIsGood] using hc) (by simpa [gradeIsBad] using hbad)
    simp [hguard, hgood, hbad]
  · rintro hnotbad ⟨n, rfl, h3, h5⟩
    rw [hsc]
    have hnn : truthyNum (some n) = true := by
      simp only [truthyNum, decide_eq_true_eq]
      omega
    have hguard : (!truthyStr g && !truthyNum (some n)) = false := by
      simp [hnn]
    by_cases hgood : gradeIsGood g = true
    · simp [hguard, hgood]
    · simp only [Bool.not_eq_true] at hgood
      simp [hguard, hgood, hnotbad, h3, h5]
  · intro hguard
    unfold classifyLevel4
    rw [if_pos hguard]
  · intro hgood hbad hout hguard
    rw [hsc]
    rcases b with _ | n
    · simp [hguard, hgood, hbad]
    · have hni := hout n rfl
      simp [hguard, hgood, hbad, hni]

/-- Witness for C6 at concrete inputs. -/
theorem claim_C6_witness :
    (classifyLevel4 (some "b-") none).score = .good ∧
    (classifyLevel4 (some "D") (some 2)).score = .bad ∧
    (classifyLevel4 none (some 4)).score = .good ∧
    classifyLevel4 none none =
      { score := .needs_lookup,
        note := "Property details require Zillow/PVA lookup" } ∧
    (classifyLevel4 (some "Z") (some 7)).score = .needs_lookup :=
  ⟨(claim_C6 (some "b-") none).1 (by decide),
   (claim_C6 (some "D") (some 2)).2.1 (by decide),
   (claim_C6 none (some 4)).2.2.1 (by decide) ⟨4, rfl, by norm_num, by norm_num⟩,
   (claim_C6 none none).2.2.2.1 (by decide),
   (claim_C6 (some "Z") (some 7)).2.2.2.2 (by decide) (by decide)
     (by intro n hn; cases hn; omega) (by decide)⟩

/-- `classifyLevel1` never returns `needs_lookup`. -/
theorem classifyLevel1_not_needs_lookup (p : PlaintiffInfo) :
    (classifyLevel1 p).score ≠ .needs_lookup := by
  unfold classifyLevel1
  by_cases h : p.isGoodLead
  · simp [h]
  · cases ht : p.type <;> simp [h, ht]

/-- `classifyLevel2` scores by `isGoodLead` alone. -/
theorem classifyLevel2_score_eq (d : DefendantInfo) :
    (classifyLevel2 d).score = (if d.isGoodLead then .good else .bad) := by
  by_cases h : d.isGoodLead <;> simp [classifyLevel2, h]

/-- `classifyLevel3` never returns `unknown`. -/
theorem classifyLevel3_not_unknown (now : Int) (pd : Option Int) :
    (classifyLevel3 now pd).score ≠ .unknown := by
  unfold classifyLevel3
  rcases pd with _ | d
  · simp
  · by_cases h : now - d ≥ 5 * yearMs <;> simp [h]

/-- `classifyLevel4` never returns `unknown`. -/
theorem classifyLevel4_not_unknown (g : Option String) (b : Option Int) :
    (classifyLevel4 g b).score ≠ .unknown := by
  rw [classifyLevel4_score_eq]
  split_ifs <;> simp

/-- Patching `bathCount` leaves the score unchanged. -/
theorem level4_bath_score (x : Level4Result) (v : Option Int) :
    ({ x with bathCount := v } : Level4Result).score = x.score := rfl

/-- **C1.** If Level 1 is bad, `classifyLead` force-sets Levels 2–4 to
the `"Skipped - Level 1 failed"` sentinel with `unknown` scores,
returns `overallScore = bad`, and sets `stopReason` from Level 1's note
prefixed by `"Level 1"`; if Level 1 is not bad and Level 2 is bad, the
same with Levels 3–4, the `"Skipped - Level 2 failed"` sentinel, and
Level 2's note. -/
theorem claim_C1 (pr : LisPendensParseResult) (now : Int) (ext : ExternalData) :
    ((classifyLevel1 pr.plaintiff).score = .bad →
      classifyLead now pr ext =
        { level1 := classifyLevel1 pr.plaintiff,
          level2 :=
            { score := .unknown, defendant := pr.defendant,
              note := "Skipped - Level 1 failed" },
          level3 := { score := .unknown, note := "Skipped - Level 1 failed" },
          level4 := { score := .unknown, note := "Skipped - Level 1 failed" },
          overallScore := .bad,
          stopReason := some ("Level 1: " ++ (classifyLevel1 pr.plaintiff).note),
          concerns := pr.plaintiff.concerns } ∧
      "Level 1".data <+: ("Level 1: " ++ (classifyLevel1 pr.plaintiff).note).data) ∧
    ((classifyLevel1 pr.plaintiff).score ≠ .bad →
      (classifyLevel2 pr.defendant).score = .bad →
      classifyLead now pr ext =
        { level1 := classifyLevel1 pr.plaintiff,
          level2 := classifyLevel2 pr.defendant,
          level3 := { score := .unknown, note := "Skipped - Level 2 failed" },
          level4 := { score := .unknown, note := "Skipped - Level 2 failed" },
          overallScore := .bad,
          stopReason := some ("Level 2: " ++ (classifyLevel2 pr.defendant).note),
          concerns := pr.plaintiff.concerns } ∧
      "Level 2".data <+: ("Level 2: " ++ (classifyLevel2 pr.defendant).note).data) := by
  constructor
  · intro h1
    constructor
    · unfold classifyLead
      rw [if_pos h1]
    · refine ⟨(": " ++ (classifyLevel1 pr.plaintiff).note).data, ?_⟩
      rw [String.data_append, ← List.append_assoc]
      rfl
  · intro h1 h2
    constructor
    · unfold classifyLead
      rw [if_neg h1, if_pos h2]
    · refine ⟨(": " ++ (classifyLevel2 pr.defendant).note).data, ?_⟩
      rw [String.data_append, ← List.append_assoc]
      rfl

/-- Witness for C1 at concrete parse results. -/
theorem claim_C1_witness :
    (classifyLead 0 fixParseHoa {}).overallScore = .bad ∧
    (classifyLead 0 fixParseHoa {}).level3.note = "Skipped - Level 1 failed" ∧
    (classifyLead 0 fixParseHoa {}).stopReason =
      some "Level 1: HOA plaintiff - not a foreclosure" ∧
    (classifyLead 0 fixParseLlc {}).overallScore = .bad ∧
    (classifyLead 0 fixParseLlc {}).level4.note = "Skipped - Level 2 failed" ∧
    (classifyLead 0 fixParseLlc {}).stopReason =
      some "Level 2: LLC/Business owner - not a personal residence" := by
  have ha := ((claim_C1 fixParseHoa 0 {}).1 (by decide)).1
  have hb := ((claim_C1 fixParseLlc 0 {}).2 (by decide) (by decide)).1
  rw [ha, hb]
  refine ⟨rfl, rfl, rfl, rfl, rfl, rfl⟩

/-- **C4 (counterexample).** The claim says a concern string is
appended whenever Level 3 or Level 4 is non-good; with a good
plaintiff/defendant, no purchase date and grade `"B"`, Level 3 is
`needs_lookup` (non-good) and Level 4 is `good`, yet `concerns` stays
empty. -/
theorem claim_C4_counterexample :
    (classifyLead 0 fixParseGood { neighborhoodGrade := some "B" }).level3.score =
      .needs_lookup ∧
    (classifyLead 0 fixParseGood { neighborhoodGrade := some "B" }).level4.score =
      .good ∧
    (classifyLead 0 fixParseGood { neighborhoodGrade := some "B" }).concerns = [] := by
  refine ⟨rfl, rfl, rfl⟩

/-- **C4 (amended).** When neither Level 1 nor Level 2 is bad:
`overallScore = good` iff all four levels are good; if any level is
`unknown` or `needs_lookup` the result is `review` with no appended
concern; otherwise, if Level 3 or Level 4 is non-good (that is, bad),
the result is `review` and the matching concern strings are appended. -/
theorem claim_C4 (pr : LisPendensParseResult) (now : Int) (ext : ExternalData)
    (h1 : (classifyLevel1 pr.plaintiff).score ≠ .bad)
    (h2 : (classifyLevel2 pr.defendant).score ≠ .bad) :
    ((classifyLead now pr ext).overallScore = .good ↔
      (classifyLead now pr ext).level1.score = .good ∧
      (classifyLead now pr ext).level2.score = .good ∧
      (classifyLead now pr ext).level3.score = .good ∧
      (classifyLead now pr ext).level4.score = .good) ∧
    (((classifyLead now pr ext).level1.score = .unknown ∨
      (classifyLead now pr ext).level2.score = .unknown ∨
      (classifyLead now pr ext).level3.score = .needs_lookup ∨
      (classifyLead now pr ext).level4.score = .needs_lookup ∨
      (classifyLead now pr ext).level3.score = .unknown ∨
      (classifyLead now pr ext).level4.score = .unknown) →
      (classifyLead now pr ext).overallScore = .review ∧
      (classifyLead now pr ext).concerns = pr.plaintiff.concerns) ∧
    (¬((classifyLead now pr ext).level1.score = .unknown ∨
      (classifyLead now pr ext).level2.score = .unknown ∨
      (classifyLead now pr ext).level3.score = .needs_lookup ∨
      (classifyLead now pr ext).level4.score = .needs_lookup ∨
      (classifyLead now pr ext).level3.score = .unknown ∨
      (classifyLead now pr ext).level4.score = .unknown) →
      ((classifyLead now pr ext).level3.score ≠ .good ∨
       (classifyLead now pr ext).level4.score ≠ .good) →
      (classifyLead now pr ext).overallScore = .review ∧
      (classifyLead now pr ext).concerns = pr.plaintiff.concerns ++
        (if (classifyLead now pr ext).level3.score ≠ .good then
          ["Limited equity position"] else []) ++
        (if (classifyLead now pr ext).level4.score ≠ .good then
          ["Property quality concerns"] else [])) := by
  unfold classifyLead
  rw [if_neg h1, if_neg h2]
  dsimp only
  have k1 : (classifyLevel1 pr.plaintiff).score ≠ .needs_lookup :=
    classifyLevel1_not_needs_lookup pr.plaintiff
  have k2 : (classifyLevel2 pr.defendant).score = .good := by
    have h := classifyLevel2_score_eq pr.defendant
    by_cases hgl : pr.defendant.isGoodLead
    · rw [h, if_pos hgl]
    · rw [h, if_neg hgl] at h2
      exact absurd rfl h2
  have k3 : (classifyLevel3 now ext.purchaseDate).score ≠ .unknown :=
    classifyLevel3_not_unknown now ext.purchaseDate
  have k4 : (if truthyNum ext.bathCount then
      { classifyLevel4 ext.neighborhoodGrade ext.bedCount with
          bathCount := ext.bathCount }
      else classifyLevel4 ext.neighborhoodGrade ext.bedCount).score ≠ .unknown := by
    split_ifs
    · exact classifyLevel4_not_unknown _ _
    · exact classifyLevel4_not_unknown _ _
  generalize hG4 : (if truthyNum ext.bathCount then
      { classifyLevel4 ext.neighborhoodGrade ext.bedCount with
          bathCount := ext.bathCount }
      else classifyLevel4 ext.neighborhoodGrade ext.bedCount) = L4 at k4 ⊢
  generalize hG3 : classifyLevel3 now ext.purchaseDate = L3 at k3 ⊢
  generalize hG1 : classifyLevel1 pr.plaintiff = L1 at h1 k1 ⊢
  generalize hG2 : classifyLevel2 pr.defendant = L2 at h2 k2 ⊢
  by_cases hd : L1.score = .unknown ∨ L2.score = .unknown ∨
      L3.score = .needs_lookup ∨ L4.score = .needs_lookup ∨
      L3.score = .unknown ∨ L4.score = .unknown
  · rw [if_pos hd]
    refine ⟨?_, fun _ => ⟨rfl, rfl⟩, fun hnd _ => absurd hd hnd⟩
    constructor
    · intro habs
      simp at habs
    · rintro ⟨ha, hb, hc, he⟩
      rcases hd with h | h | h | h | h | h <;> simp_all
  · rw [if_neg hd]
    push_neg at hd
    obtain ⟨hn1, hn2, hn3, hn4, hn5, hn6⟩ := hd
    by_cases hrev : L3.score ≠ .good ∨ L4.score ≠ .good
    · rw [if_pos hrev]
      refine ⟨?_, ?_, fun _ _ => ⟨rfl, rfl⟩⟩
      · constructor
        · intro habs
          simp at habs
        · rintro ⟨ha, hb, hc, he⟩
          rcases hrev with h | h <;> simp_all
      · intro hdisj
        simp only at hdisj
        rcases hdisj with h | h | h | h | h | h <;> simp_all
    · rw [if_neg hrev]
      push_neg at hrev
      obtain ⟨hg3, hg4⟩ := hrev
      have hg1 : L1.score = .good := by
        cases hs : L1.score <;> simp_all
      refine ⟨?_, ?_, ?_⟩
      · simp [hg1, k2, hg3, hg4]
      · intro hdisj
        simp only at hdisj
        rcases hdisj with h | h | h | h | h | h <;> simp_all
      · intro _ hbad
        simp only at hbad
        rcases hbad with h | h
        · exact absurd hg3 h
        · exact absurd hg4 h

/-- Witness for C4 at a concrete parse result. -/
theorem claim_C4_witness :
    (classifyLead 0 fixParseGood {}).overallScore = .review ∧
    (classifyLead 0 fixParseGood {}).concerns = fixParseGood.plaintiff.concerns :=
  (claim_C4 fixParseGood 0 {} (by decide) (by decide)).2.1
    (Or.inr (Or.inr (Or.inl (by decide))))

/-- The quality tier as a function of the score. -/
theorem quality_tier (n : Nat) :
    ((if n ≥ 80 then AddressQuality.high
      else if n ≥ 50 then AddressQuality.medium else AddressQuality.low) =
        AddressQuality.high ↔ 80 ≤ n) ∧
    ((if n ≥ 80 then AddressQuality.high
      else if n ≥ 50 then AddressQuality.medium else AddressQuality.low) =
        AddressQuality.medium ↔ 50 ≤ n ∧ n < 80) ∧
    ((if n ≥ 80 then AddressQuality.high
      else if n ≥ 50 then AddressQuality.medium else AddressQuality.low) =
        AddressQuality.low ↔ n < 50) := by
  split_ifs with ha hb <;> refine ⟨?_, ?_, ?_⟩ <;> simp <;> omega

/-- **C3.** `scoreAddressCandidate` hard-rejects non-address phrases
with score 0, quality `low`, `isLikelyAddress = false`, and reasons
exactly `["matched_non_address_phrase"]`; otherwise it sums +40 leading
number, +30 street type, +10 city, +10 state, +10 ZIP, with
`quality = high` iff score ≥ 80, `medium` iff 50 ≤ score < 80, `low`
otherwise, and `isLikelyAddress` iff score ≥ 50. -/
theorem claim_C3 (s : String) :
    (matchesNonAddress (cleanForAddressExtraction s).data = true →
      scoreAddressCandidate s =
        { raw := s, cleaned := cleanForAddressExtraction s, score := 0,
          quality := .low, isLikelyAddress := false,
          reasons := ["matched_non_address_phrase"] }) ∧
    (matchesNonAddress (cleanForAddressExtraction s).data = false →
      (scoreAddressCandidate s).score =
        (if hasLeadingNumber (cleanForAddressExtraction s).data then 40 else 0) +
        (if hasStreetType (cleanForAddressExtraction s).data then 30 else 0) +
        (if hasCity (cleanForAddressExtraction s).data then 10 else 0) +
        (if hasState (cleanForAddressExtraction s).data then 10 else 0) +
        (if hasZip (cleanForAddressExtraction s).data then 10 else 0) ∧
      ((scoreAddressCandidate s).quality = .high ↔
        80 ≤ (scoreAddressCandidate s).score) ∧
      ((scoreAddressCandidate s).quality = .medium ↔
        50 ≤ (scoreAddressCandidate s).score ∧ (scoreAddressCandidate s).score < 80) ∧
      ((scoreAddressCandidate s).quality = .low ↔
        (scoreAddressCandidate s).score < 50) ∧
      ((scoreAddressCandidate s).isLikelyAddress = true ↔
        50 ≤ (scoreAddressCandidate s).score)) := by
  constructor
  · intro h
    unfold scoreAddressCandidate
    dsimp only
    rw [if_pos h]
  · intro h
    have h' : ¬(matchesNonAddress (cleanForAddressExtraction s).data = true) := by
      simp [h]
    unfold scoreAddressCandidate
    dsimp only
    rw [if_neg h']
    refine ⟨rfl, ?_, ?_, ?_, ?_⟩
    · exact (quality_tier _).1
    · exact (quality_tier _).2.1
    · exact (quality_tier _).2.2
    · simp

/-- Witness for C3 at concrete candidates. -/
theorem claim_C3_witness :
    scoreAddressCandidate "south of Main Street" =
      { raw := "south of Main Street",
        cleaned := cleanForAddressExtraction "south of Main Street", score := 0,
        quality := .low, isLikelyAddress := false,
        reasons := ["matched_non_address_phrase"] } ∧
    ((scoreAddressCandidate "123 Main Street, Lexington, KY 40508").quality =
        .high ↔ 80 ≤ (scoreAddressCandidate "123 Main Street, Lexington, KY 40508").score) :=
  ⟨(claim_C3 "south of Main Street").1 (by decide),
   ((claim_C3 "123 Main Street, Lexington, KY 40508").2 (by decide)).2.1⟩

/-- Characters of `collapseSpGo` output come from the input, are the
introduced space, or are the buffered pending character. -/
theorem collapseSpGo_mem (l : List Char) :
    ∀ st c, c ∈ collapseSpGo st l →
      c = ' ' ∨ c ∈ l ∨ ∃ w, st = WsSt.pend w ∧ c = w := by
  induction l with
  | nil =>
    intro st c hc
    cases st with
    | normal => simp [collapseSpGo] at hc
    | pend w =>
      simp only [collapseSpGo, List.mem_singleton] at hc
      exact Or.inr (Or.inr ⟨w, rfl, hc⟩)
    | run => simp [collapseSpGo] at hc
  | cons a l ih =>
    intro st c hc
    cases st with
    | normal =>
      simp only [collapseSpGo] at hc
      by_cases ha : a = ' '
      · rw [if_pos ha] at hc
        rcases ih _ _ hc with h | h | ⟨w, hw, rfl⟩
        · exact Or.inl h
        · exact Or.inr (Or.inl (List.mem_cons_of_mem _ h))
        · cases hw; exact Or.inr (Or.inl (List.mem_cons_self _ _))
      · rw [if_neg ha] at hc
        rcases List.mem_cons.mp hc with rfl | hc
        · exact Or.inr (Or.inl (List.mem_cons_self _ _))
        · rcases ih _ _ hc with h | h | ⟨w, hw, _⟩
          · exact Or.inl h
          · exact Or.inr (Or.inl (List.mem_cons_of_mem _ h))
          · cases hw
    | pend w =>
      simp only [collapseSpGo] at hc
      by_cases ha : a = ' '
      · rw [if_pos ha] at hc
        rcases List.mem_cons.mp hc with rfl | hc
        · exact Or.inl rfl
        · rcases ih _ _ hc with h | h | ⟨w2, hw, _⟩
          · exact Or.inl h
          · exact Or.inr (Or.inl (List.mem_cons_of_mem _ h))
          · cases hw
      · rw [if_neg ha] at hc
        rcases List.mem_cons.mp hc with rfl | hc
        · exact Or.inr (Or.inr ⟨_, rfl, rfl⟩)
        · rcases List.mem_cons.mp hc with rfl | hc
          · exact Or.inr (Or.inl (List.mem_cons_self _ _))
          · rcases ih _ _ hc with h | h | ⟨w2, hw, _⟩
            · exact Or.inl h
            · exact Or.inr (Or.inl (List.mem_cons_of_mem _ h))
            · cases hw
    | run =>
      simp only [collapseSpGo] at hc
      by_cases ha : a = ' '
      · rw [if_pos ha] at hc
        rcases ih _ _ hc with h | h | ⟨w2, hw, _⟩
        · exact Or.inl h
        · exact Or.inr (Or.inl (List.mem_cons_of_mem _ h))
        · cases hw
      · rw [if_neg ha] at hc
        rcases List.mem_cons.mp hc with rfl | hc
        · exact Or.inr (Or.inl (List.mem_cons_self _ _))
        · rcases ih _ _ hc with h | h | ⟨w2, hw, _⟩
          · exact Or.inl h
          · exact Or.inr (Or.inl (List.mem_cons_of_mem _ h))
          · cases hw

/-- Characters of a `splitNl` piece come from the input. -/
theorem splitNl_mem (l : List Char) :
    ∀ p ∈ splitNl l, ∀ c ∈ p, c ∈ l := by
  induction l with
  | nil =>
    intro p hp c hc
    simp only [splitNl, List.mem_singleton] at hp
    subst hp
    simp at hc
  | cons a l ih =>
    intro p hp c hc
    by_cases ha : a = '\n'
    · simp only [splitNl, if_pos ha, List.mem_cons] at hp
      rcases hp with rfl | hp
      · simp at hc
      · exact List.mem_cons_of_mem _ (ih p hp c hc)
    · simp only [splitNl, if_neg ha] at hp
      cases hs : splitNl l with
      | nil =>
        rw [hs] at hp
        simp only [List.mem_singleton] at hp
        subst hp
        rcases List.mem_singleton.mp hc with rfl
        exact List.mem_cons_self _ _
      | cons h t =>
        rw [hs] at hp
        rcases List.mem_cons.mp hp with rfl | hp
        · rcases List.mem_cons.mp hc with rfl | hc
          · exact List.mem_cons_self _ _
          · exact List.mem_cons_of_mem _ (ih h (hs ▸ List.mem_cons_self _ _) c hc)
        · exact List.mem_cons_of_mem _
            (ih p (hs ▸ List.mem_cons_of_mem _ hp) c hc)

/-- Characters of `joinNl` output are line feeds or come from a piece. -/
theorem joinNl_mem : ∀ (ls : List (List Char)) (c : Char), c ∈ joinNl ls →
    c = '\n' ∨ ∃ p ∈ ls, c ∈ p := by
  intro ls
  induction ls with
  | nil => intro c hc; simp [joinNl] at hc
  | cons p ls ih =>
    intro c hc
    cases ls with
    | nil =>
      simp only [joinNl] at hc
      exact Or.inr ⟨p, List.mem_cons_self _ _, hc⟩
    | cons q ls2 =>
      simp only [joinNl, List.mem_append, List.mem_cons] at hc
      rcases hc with hc | rfl | hc
      · exact Or.inr ⟨p, List.mem_cons_self _ _, hc⟩
      · exact Or.inl rfl
      · rcases ih c hc with h | ⟨r, hr, hcr⟩
        · exact Or.inl h
        · exact Or.inr ⟨r, List.mem_cons_of_mem _ hr, hcr⟩

/-- **C9 (counterexample).** The claim says the sanitizer removes all
control characters while preserving newline and tab; but a leading tab
is dropped by line trimming, and a carriage return inside a line (a
control character that is neither `\n` nor `\t`) is kept. -/
theorem claim_C9_counterexample :
    '\t' ∈ "\ta".data ∧ '\t' ∉ (sanitizeSlackText "\ta").data ∧
    '\x0d' ∈ (sanitizeSlackText "a\x0db").data ∧
    removedCtl '\x0d' = false ∧ ('\x0d').toNat ≤ 31 := by decide

/-- **C9 (amended).** The sanitizer removes exactly the control
characters in `{U+0000–U+0008, U+000B, U+000C, U+000E–U+001F, U+007F}`
and every degree sign from its result (tab, LF and CR are outside the
removed class, and whitespace can additionally be dropped only by
line-edge trimming or space-run collapsing). -/
theorem claim_C9 (s : String) :
    ∀ c ∈ (sanitizeSlackText s).data, removedCtl c = false ∧ isDegree c = false := by
  intro c hc
  have hc1 : c ∈ joinNl ((splitNl (collapseSpGo .normal
      ((s.data.filter fun x => !removedCtl x).map
        fun x => if isDegree x then ' ' else x))).map trimL) :=
    (trimL_sublist _).subset hc
  have hnl : removedCtl '\n' = false ∧ isDegree '\n' = false := by decide
  have hsp : removedCtl ' ' = false ∧ isDegree ' ' = false := by decide
  rcases joinNl_mem _ c hc1 with rfl | ⟨p, hp, hcp⟩
  · exact hnl
  · obtain ⟨q, hq, rfl⟩ := List.mem_map.mp hp
    have hcq : c ∈ q := (trimL_sublist _).subset hcp
    have hsp2 := splitNl_mem _ q hq c hcq
    rcases collapseSpGo_mem _ _ _ hsp2 with rfl | h | ⟨w, hw, _⟩
    · exact hsp
    · obtain ⟨d, hd, hdev⟩ := List.mem_map.mp h
      by_cases hdeg : isDegree d = true
      · rw [if_pos hdeg] at hdev
        subst hdev
        exact hsp
      · rw [if_neg (by simp [hdeg])] at hdev
        subst hdev
        have hf := List.of_mem_filter hd
        simp only [Bool.not_eq_true'] at hf
        exact ⟨hf, by simpa using hdeg⟩
    · cases hw

/-- Witness for C9 at a concrete input and character. -/
theorem claim_C9_witness :
    removedCtl 'a' = false ∧ isDegree 'a' = false :=
  claim_C9 "a\x01b" 'a' (by decide)

/-- `splitNl` never returns the empty list. -/
theorem splitNl_ne_nil (l : List Char) : splitNl l ≠ [] := by
  cases l with
  | nil => simp [splitNl]
  | cons a l =>
    by_cases ha : a = '\n'
    · simp [splitNl, ha]
    · simp only [splitNl, if_neg ha]
      cases hs : splitNl l <;> simp

/-- Splitting a line-feed-free list is trivial. -/
theorem splitNl_no_nl {m : List Char} (hm : '\n' ∉ m) : splitNl m = [m] := by
  induction m with
  | nil => rfl
  | cons a m ih =>
    have ha : a ≠ '\n' := fun h => hm (h ▸ List.mem_cons_self _ _)
    have hm2 : '\n' ∉ m := fun h => hm (List.mem_cons_of_mem _ h)
    simp only [splitNl, if_neg ha, ih hm2]

/-- A split of a list containing a line feed has at least two pieces. -/
theorem splitNl_append_len (l m : List Char) :
    2 ≤ (splitNl (l ++ '\n' :: m)).length := by
  induction l with
  | nil =>
    simp only [List.nil_append, splitNl, if_pos rfl, List.length_cons]
    have := splitNl_ne_nil m
    cases hs : splitNl m with
    | nil => exact absurd hs this
    | cons h t => simp
  | cons a l ih =>
    by_cases ha : a = '\n'
    · subst ha
      have h2 : splitNl ('\n' :: (l ++ '\n' :: m)) = [] :: splitNl (l ++ '\n' :: m) := rfl
      rw [List.cons_append, h2, List.length_cons]
      omega
    · simp only [List.cons_append, splitNl, if_neg ha]
      cases hs : splitNl (l ++ '\n' :: m) with
      | nil => exact absurd hs (splitNl_ne_nil _)
      | cons h t =>
        rw [hs] at ih
        simpa using ih

/-- The last piece of a split ending in a line-feed-free tail. -/
theorem splitNl_getLast (l m : List Char) (hm : '\n' ∉ m) :
    (splitNl (l ++ '\n' :: m)).getLast? = some m := by
  induction l with
  | nil =>
    simp only [List.nil_append, splitNl, if_pos rfl]
    rw [splitNl_no_nl hm]
    rfl
  | cons a l ih =>
    by_cases ha : a = '\n'
    · simp only [List.cons_append, splitNl, if_pos ha]
      rw [List.getLast?_cons]
      cases hs : splitNl (l ++ '\n' :: m) with
      | nil => exact absurd hs (splitNl_ne_nil _)
      | cons h t =>
        rw [hs] at ih
        simpa [List.getLast?_cons] using ih
    · simp only [List.cons_append, splitNl, if_neg ha]
      cases hs : splitNl (l ++ '\n' :: m) with
      | nil => exact absurd hs (splitNl_ne_nil _)
      | cons h t =>
        have hlen := splitNl_append_len l m
        rw [hs] at ih hlen
        cases t with
        | nil => simp at hlen
        | cons h2 t2 => simpa [List.getLast?_cons_cons] using ih

/-- `joinNl` over a list ending in one more piece. -/
theorem joinNl_append_single (ys : List (List Char)) (m : List Char)
    (hys : ys ≠ []) : joinNl (ys ++ [m]) = joinNl ys ++ '\n' :: m := by
  induction ys with
  | nil => exact absurd rfl hys
  | cons y ys ih =>
    cases ys with
    | nil => rfl
    | cons y2 ys2 =>
      have h2 : (y2 :: ys2 : List (List Char)) ≠ [] := by simp
      calc joinNl ((y :: y2 :: ys2) ++ [m])
          = y ++ '\n' :: joinNl ((y2 :: ys2) ++ [m]) := rfl
        _ = y ++ '\n' :: (joinNl (y2 :: ys2) ++ '\n' :: m) := by rw [ih h2]
        _ = (y ++ '\n' :: joinNl (y2 :: ys2)) ++ '\n' :: m := by simp
        _ = joinNl (y :: y2 :: ys2) ++ '\n' :: m := rfl

/-- The last line of a `join('\n')` whose final piece is line-feed
free. -/
theorem strJoinNl_last_line (xs : List String) (m : String)
    (hm : '\n' ∉ m.data) :
    (splitNl (strJoinNl (xs ++ [m])).data).getLast? = some m.data := by
  unfold strJoinNl
  cases xs with
  | nil =>
    show (splitNl (joinNl [m.data])).getLast? = some m.data
    show (splitNl m.data).getLast? = some m.data
    rw [splitNl_no_nl hm]
    rfl
  | cons x xs =>
    have hne : ((x :: xs).map String.data) ≠ [] := by simp
    show (splitNl (joinNl (((x :: xs) ++ [m]).map String.data))).getLast? = some m.data
    rw [List.map_append]
    simp only [List.map_cons, List.map_nil]
    rw [joinNl_append_single _ _ (by simp)]
    exact splitNl_getLast _ _ hm

/-- A leading chunk before a line feed does not affect the last
piece of the split. -/
theorem splitNl_append_nl_getLast (l r : List Char) :
    (splitNl (l ++ '\n' :: r)).getLast? = (splitNl r).getLast? := by
  induction l with
  | nil =>
    rw [List.nil_append,
      show splitNl ('\n' :: r) = [] :: splitNl r from rfl]
    cases hs : splitNl r with
    | nil => exact absurd hs (splitNl_ne_nil r)
    | cons h t => rw [List.getLast?_cons_cons]
  | cons a l ih =>
    by_cases ha : a = '\n'
    · subst ha
      rw [List.cons_append,
        show splitNl ('\n' :: (l ++ '\n' :: r)) = [] :: splitNl (l ++ '\n' :: r) from rfl]
      cases hs : splitNl (l ++ '\n' :: r) with
      | nil => exact absurd hs (splitNl_ne_nil _)
      | cons h t =>
        rw [List.getLast?_cons_cons, ← hs, ih]
    · rw [List.cons_append,
        show splitNl (a :: (l ++ '\n' :: r)) =
          (match splitNl (l ++ '\n' :: r) with
           | h :: t => (a :: h) :: t
           | [] => [[a]]) from by simp only [splitNl, if_neg ha]]
      cases hs : splitNl (l ++ '\n' :: r) with
      | nil => exact absurd hs (splitNl_ne_nil _)
      | cons h t =>
        have hlen := splitNl_append_len l r
        rw [hs] at hlen
        cases t with
        | nil => simp at hlen
        | cons h2 t2 =>
          have h3 := ih
          rw [hs, List.getLast?_cons_cons] at h3
          rw [List.getLast?_cons_cons]
          exact h3

/-- If the last line of a `join('\n')` has no line feed of its own, it
is the last piece of re-splitting the joined text. -/
theorem splitNl_strJoin_last (xs : List String) (m : String) (hm : '\n' ∉ m.data)
    (h : xs.getLast? = some m) :
    (splitNl (strJoinNl xs).data).getLast? = some m.data := by
  induction xs with
  | nil => simp at h
  | cons x xs ih =>
    cases xs with
    | nil =>
      have hx : x = m := by simpa using h
      subst hx
      show (splitNl (joinNl [x.data])).getLast? = some x.data
      rw [show joinNl [x.data] = x.data from rfl, splitNl_no_nl hm]
      rfl
    | cons y ys =>
      rw [List.getLast?_cons_cons] at h
      have ih2 := ih h
      show (splitNl (joinNl ((x :: y :: ys).map String.data))).getLast? = some m.data
      rw [show joinNl ((x :: y :: ys).map String.data) =
        x.data ++ '\n' :: joinNl ((y :: ys).map String.data) from rfl]
      rw [splitNl_append_nl_getLast]
      exact ih2

/-- If the text ends in a non-newline character, so does the last
line of its newline split. -/
theorem splitNl_last_endChar (c : Char) (hc : ¬(c = '\n')) :
    ∀ (l : List Char), l.getLast? = some c →
      ∃ w, (splitNl l).getLast? = some w ∧ w.getLast? = some c := by
  intro l
  induction l with
  | nil => intro h; simp at h
  | cons a l ih =>
    intro h
    cases l with
    | nil =>
      have ha : a = c := by simpa using h
      subst ha
      have hs : splitNl [a] = [[a]] := by
        simp only [splitNl, if_neg hc]
      exact ⟨[a], by rw [hs]; rfl, rfl⟩
    | cons b l' =>
      rw [List.getLast?_cons_cons] at h
      obtain ⟨w, hw1, hw2⟩ := ih h
      by_cases ha : a = '\n'
      · subst ha
        rw [show splitNl ('\n' :: b :: l') = [] :: splitNl (b :: l') from rfl]
        cases hs : splitNl (b :: l') with
        | nil => exact absurd hs (splitNl_ne_nil _)
        | cons h0 t0 =>
          rw [hs] at hw1
          exact ⟨w, by rw [List.getLast?_cons_cons]; exact hw1, hw2⟩
      · rw [show splitNl (a :: b :: l') =
            (match splitNl (b :: l') with
             | h :: t => (a :: h) :: t
             | [] => [[a]]) from by simp only [splitNl, if_neg ha]]
        cases hs : splitNl (b :: l') with
        | nil => exact absurd hs (splitNl_ne_nil _)
        | cons h0 t0 =>
          cases t0 with
          | nil =>
            rw [hs] at hw1
            have hw0 : w = h0 := by simpa using hw1.symm
            subst hw0
            refine ⟨a :: w, rfl, ?_⟩
            cases hw : w with
            | nil => rw [hw] at hw2; simp at hw2
            | cons x xs =>
              rw [hw] at hw2
              rw [List.getLast?_cons_cons]
              exact hw2
          | cons h1 t1 =>
            rw [hs] at hw1
            rw [List.getLast?_cons_cons] at hw1
            exact ⟨w, by rw [List.getLast?_cons_cons]; exact hw1, hw2⟩

/-- The fallback note line always ends in an underscore. -/
theorem noteLine_last (q : String) :
    ("  _:information_source: Links based on defendant name (address quality: " ++
      q ++ ")_").data.getLast? = some '_' := by
  rw [String.data_append,
    List.getLast?_append_of_ne_nil _ (by decide : (")_" : String).data ≠ [])]
  decide

/-- The people-search link line always ends in a closing angle bracket. -/
theorem phoneLine_last (tps fps : String) :
    ("  :telephone_receiver: " ++ String.intercalate " | "
      ["<" ++ tps ++ "|TruePeople>", "<" ++ fps ++ "|FastPeople>"]).data.getLast? =
      some '>' := by
  rw [show String.intercalate " | " ["<" ++ tps ++ "|TruePeople>", "<" ++ fps ++ "|FastPeople>"]
      = ("<" ++ tps ++ "|TruePeople>" ++ " | ") ++ ("<" ++ fps ++ "|FastPeople>") from rfl]
  simp only [String.data_append]
  rw [List.getLast?_append_of_ne_nil _
      (List.append_ne_nil_of_right_ne_nil _
        (List.append_ne_nil_of_right_ne_nil _ (by decide))),
    List.getLast?_append_of_ne_nil _
      (List.append_ne_nil_of_right_ne_nil _ (by decide)),
    List.getLast?_append_of_ne_nil _ (by decide)]
  decide

/-- Joining lines and re-splitting: the last split piece is the last
split piece of the final line. -/
theorem splitNl_strJoin_last_gen (xs : List String) (m : String)
    (h : xs.getLast? = some m) :
    (splitNl (strJoinNl xs).data).getLast? = (splitNl m.data).getLast? := by
  induction xs with
  | nil => simp at h
  | cons x xs ih =>
    cases xs with
    | nil =>
      have hx : x = m := by simpa using h
      subst hx
      rfl
    | cons y ys =>
      rw [List.getLast?_cons_cons] at h
      have ih2 := ih h
      show (splitNl (joinNl ((x :: y :: ys).map String.data))).getLast? = _
      rw [show joinNl ((x :: y :: ys).map String.data) =
        x.data ++ '\n' :: joinNl ((y :: ys).map String.data) from rfl]
      rw [splitNl_append_nl_getLast]
      exact ih2

/-- Specialization: a lines list ending in two known lines. -/
theorem splitNl_strJoin_append_two (xs : List String) (l1 m : String) :
    (splitNl (strJoinNl (xs ++ [l1, m])).data).getLast? = (splitNl m.data).getLast? :=
  splitNl_strJoin_last_gen _ m
    (by rw [List.getLast?_append_of_ne_nil _ (by simp)]; rfl)

/-- **C5 (counterexample).** The claim says lookup URLs derive from the
cleaned address only when its quality is high or medium; but
`generateLookupLinks` embeds the cleaned text of a low-quality address
instead of falling back to a name-only query. -/
theorem claim_C5_counterexample :
    lowQualityAddr.quality = .low ∧
    (generateLookupLinks (some lowQualityAddr) "John Doe").zillow =
      "https://www.zillow.com/homes/south%20of%20Main_rb/" ∧
    (generateLookupLinks none "John Doe").zillow =
      "https://www.zillow.com/homes/?searchQueryState=\x7b\"usersSearchTerm\":\"John%20Doe\"\x7d" ∧
    (generateLookupLinks (some lowQualityAddr) "John Doe").zillow ≠
      (generateLookupLinks none "John Doe").zillow := by
  refine ⟨rfl, rfl, rfl, by decide⟩

/-- **C5 (amended).** `generateLookupLinks` derives the Zillow and Maps
URLs from the cleaned address whenever an address is present, whatever
its quality; only an absent address falls back to defendant-name-only
queries; and the Slack formatter appends the name-fallback note (as the
final line of the lead text) exactly when the address is absent or of
low quality — for a present high- or medium-quality address the last
line is never such a note — leaving all scores untouched. -/
theorem claim_C5 (a : ParsedAddress) (name : String) (lead : ClassifiedLead) :
    (generateLookupLinks (some a) name).zillow =
      "https://www.zillow.com/homes/" ++ encodeURIComponent a.cleaned ++ "_rb/" ∧
    (generateLookupLinks (some a) name).googleMaps =
      "https://www.google.com/maps/search/" ++ encodeURIComponent a.cleaned ∧
    (generateLookupLinks none name).zillow =
      "https://www.zillow.com/homes/?searchQueryState=\x7b\"usersSearchTerm\":\"" ++
        encodeURIComponent name ++ "\"\x7d" ∧
    (generateLookupLinks none name).googleMaps =
      "https://www.google.com/maps/search/" ++ encodeURIComponent name ∧
    ((lead.propertyAddress = none ∨
      ∃ p, lead.propertyAddress = some p ∧ p.quality = .low) →
      (splitNl (formatLeadForSlack lead).data).getLast? =
        some ("  _:information_source: Links based on defendant name (address quality: " ++
          (match lead.propertyAddress with
           | some p => qualityStr p.quality
           | none => "none") ++ ")_").data) ∧
    (∀ p, lead.propertyAddress = some p →
      (p.quality = .high ∨ p.quality = .medium) →
      ∀ q : String,
        (splitNl (formatLeadForSlack lead).data).getLast? ≠
          some ("  _:information_source: Links based on defendant name (address quality: " ++
            q ++ ")_").data) := by
  refine ⟨rfl, rfl, rfl, rfl, ?_, ?_⟩
  · intro hyp
    obtain ⟨id0, pdf0, pa0, ma0, pl0, df0, cl0, lk0, pv0, rt0⟩ := lead
    rcases hyp with hnone | ⟨p, hsome, hlow⟩
    · simp only at hnone
      subst hnone
      unfold formatLeadForSlack
      simp only [Option.map_none', Option.isSome_none, Bool.false_eq_true, if_false,
        Bool.not_false, if_true]
      refine splitNl_strJoin_last _ _ (by decide) ?_
      repeat rw [List.getLast?_append_of_ne_nil _ (by simp)]
      rfl
    · simp only at hsome
      subst hsome
      unfold formatLeadForSlack
      simp only [Option.map_some', Option.isSome_some, hlow, qualityStr, if_true,
        Bool.or_self, Bool.not_false, reduceCtorEq, Bool.false_eq_true, if_false]
      refine splitNl_strJoin_last _ _ (by decide) ?_
      repeat rw [List.getLast?_append_of_ne_nil _ (by simp)]
      rfl
  · intro p hp hq q heq
    obtain ⟨id0, pdf0, pa0, ma0, pl0, df0, cl0, lk0, pv0, rt0⟩ := lead
    simp only at hp
    subst hp
    unfold formatLeadForSlack at heq
    rcases hq with h | h <;>
      simp only [h, Option.map_some', Option.isSome_some, reduceCtorEq, eq_self_iff_true,
        decide_True, decide_False, Bool.true_or, Bool.or_true, Bool.false_or, Bool.or_false,
        Bool.not_true, Bool.false_eq_true, if_false, if_true, List.append_nil] at heq <;>
    · rw [splitNl_strJoin_append_two] at heq
      obtain ⟨w, hw1, hw2⟩ :=
        splitNl_last_endChar '>' (by decide) _
          (phoneLine_last lk0.truePeopleSearch lk0.fastPeopleSearch)
      rw [hw1, Option.some_inj] at heq
      rw [heq, noteLine_last] at hw2
      simp at hw2

/-- Witness for C5: the concrete no-address lead gets the fallback note
as the last line of its Slack text, and the same lead with a
high-quality address does not. -/
theorem claim_C5_witness :
    ((splitNl (formatLeadForSlack fixLeadNoAddr).data).getLast? =
      some ("  _:information_source: Links based on defendant name (address quality: none)_").data) ∧
    ((splitNl (formatLeadForSlack fixLeadGoodAddr).data).getLast? ≠
      some ("  _:information_source: Links based on defendant name (address quality: low)_").data) :=
  ⟨(claim_C5 lowQualityAddr "John Smith" fixLeadNoAddr).2.2.2.2.1 (Or.inl rfl),
   (claim_C5 lowQualityAddr "John Smith" fixLeadGoodAddr).2.2.2.2.2
     highQualityAddr rfl (Or.inl rfl) "low"⟩

/-- Truncation really caps the length once the limit leaves room for
the ellipsis. -/
theorem truncateSlackText_length (t : String) (n : Nat) (h : 3 ≤ n) :
    (truncateSlackText t n).length ≤ n := by
  unfold truncateSlackText
  dsimp only
  split
  · assumption
  · show (jsSliceTo (sanitizeSlackText t).data ((n : Int) - 3) ++ "...".data).length ≤ n
    unfold jsSliceTo
    rw [if_pos (by omega : ((n : Int) - 3) ≥ 0),
      (by omega : ((n : Int) - 3).toNat = n - 3),
      List.length_append, List.length_take]
    have hb : ("...".data).length = 3 := rfl
    omega

/-- Every section block built by `createSectionBlock` respects the
3000-character ceiling. -/
theorem goodBlock_section (t : String) : goodBlock (createSectionBlock t) = true := by
  show decide ((truncateSlackText t 3000).length ≤ 3000) = true
  exact decide_eq_true (truncateSlackText_length t 3000 (by omega))

/-- Every header block built by `createHeaderBlock` respects the
150-character ceiling. -/
theorem goodBlock_header (t : String) (e : Bool) :
    goodBlock (createHeaderBlock t e) = true := by
  show decide ((truncateSlackText t 150).length ≤ 150) = true
  exact decide_eq_true (truncateSlackText_length t 150 (by omega))

/-- Dividers are within limits. -/
theorem goodBlock_divider : goodBlock SlackBlock.divider = true := rfl

/-- The lead-packing loop preserves the per-block ceilings. -/
theorem addLeadBlocksGo_all_good (f : ClassifiedLead → String) (sep : String)
    (leads : List ClassifiedLead) :
    ∀ (blocks : List SlackBlock) (cur : String),
      blocks.all goodBlock = true →
      (addLeadBlocksGo f sep blocks cur leads).all goodBlock = true := by
  induction leads with
  | nil =>
    intro blocks cur hb
    rw [addLeadBlocksGo]
    split
    · rw [List.all_append, hb]
      simp [goodBlock_section]
    · exact hb
  | cons lead rest ih =>
    intro blocks cur hb
    rw [addLeadBlocksGo]
    split
    · split
      · apply ih
        rw [List.all_append, hb]
        simp [goodBlock_section]
      · exact ih blocks _ hb
    · split
      · exact ih blocks _ hb
      · exact ih blocks _ hb

/-- `addLeadBlocks` preserves the per-block ceilings. -/
theorem addLeadBlocks_all_good (blocks : List SlackBlock) (leads : List ClassifiedLead)
    (f : ClassifiedLead → String) (sep : String) (hb : blocks.all goodBlock = true) :
    (addLeadBlocks blocks leads f sep).all goodBlock = true := by
  unfold addLeadBlocks
  split
  · exact hb
  · exact addLeadBlocksGo_all_good f sep leads blocks "" hb

set_option maxHeartbeats 1000000 in
/-- Every block assembled by the report builder respects the per-block
ceilings. -/
theorem formatLeadsBlocksRaw_all_good (todayStr : String) (leads : List ClassifiedLead) :
    (formatLeadsBlocksRaw todayStr leads).all goodBlock = true := by
  unfold formatLeadsBlocksRaw
  dsimp only
  repeat' split
  all_goals
    repeat'
      first
      | (rw [List.all_append, Bool.and_eq_true]; constructor)
      | simp only [List.all_cons, List.all_nil, goodBlock_section, goodBlock_header,
          goodBlock_divider, Bool.and_self, Bool.and_true, Bool.true_and]
      | apply addLeadBlocks_all_good

/-- **C2.** For every date string and list of classified leads, the
Slack report has at most 50 blocks, every section block text at most
3000 characters, and every header block text at most 150 characters. -/
theorem claim_C2 (todayStr : String) (leads : List ClassifiedLead) :
    blocksWithinLimits (formatLeadsForSlack todayStr leads).blocks = true := by
  have hall := formatLeadsBlocksRaw_all_good todayStr leads
  unfold formatLeadsForSlack blocksWithinLimits
  dsimp only
  rw [Bool.and_eq_true]
  refine ⟨?_, ?_⟩
  · rw [decide_eq_true_iff]
    split
    · rw [List.length_take]
      omega
    · omega
  · split
    · rw [List.all_eq_true] at hall ⊢
      intro x hx
      exact hall x ((List.take_sublist 50 _).subset hx)
    · exact hall

/-- The plaintiff classifier reports the whitespace-normalized input
name. -/
theorem classifyPlaintiff_name (n t : List Char) :
    (classifyPlaintiff n t).name = normalizeWhitespace ⟨n⟩ := rfl

/-- The defendant classifier reports the whitespace-normalized input
name. -/
theorem classifyDefendant_name (n t : List Char) :
    (classifyDefendant n t).name = normalizeWhitespace ⟨n⟩ := rfl

/-- **C7.** `parseLisPendens` is a total function of its input (the
embedding returns a result for every string, echoing the input as
`rawText`); whenever none of the four plaintiff patterns yields an
acceptable cleaned capture the plaintiff name is exactly the sentinel
"Unknown Plaintiff", and likewise "Unknown Defendant" for the
defendant. -/
theorem claim_C7 (s : String) :
    (parseLisPendens s).rawText = s ∧
    (((plaintiffCands (legalL (normalizeForLegalParsing s).data)).findSome? fun oc =>
        oc.bind fun cap => acceptName (cleanPlaintiffCapture cap)) = none →
      (parseLisPendens s).plaintiff.name = "Unknown Plaintiff") ∧
    (((defendantCands (legalL (normalizeForLegalParsing s).data)).findSome? fun oc =>
        oc.bind fun cap => acceptName (cleanDefendantCapture cap)) = none →
      (parseLisPendens s).defendant.name = "Unknown Defendant") := by
  refine ⟨rfl, ?_, ?_⟩
  · intro h
    have hname : extractPlaintiffName (normalizeForLegalParsing s) = "Unknown Plaintiff" := by
      unfold extractPlaintiffName
      rw [h]
      rfl
    show (classifyPlaintiff (extractPlaintiffName (normalizeForLegalParsing s)).data
      (normalizeForLegalParsing s).data).name = "Unknown Plaintiff"
    rw [hname, classifyPlaintiff_name]
    decide
  · intro h
    have hname : extractDefendantName (normalizeForLegalParsing s) = "Unknown Defendant" := by
      unfold extractDefendantName
      rw [h]
      rfl
    show (classifyDefendant (extractDefendantName (normalizeForLegalParsing s)).data
      (normalizeForLegalParsing s).data).name = "Unknown Defendant"
    rw [hname, classifyDefendant_name]
    decide

/-- Witness for C7 on text with no legal structure: both sentinels. -/
theorem claim_C7_witness :
    (parseLisPendens "This is just random text with no legal structure").plaintiff.name =
      "Unknown Plaintiff" ∧
    (parseLisPendens "This is just random text with no legal structure").defendant.name =
      "Unknown Defendant" :=
  ⟨(claim_C7 "This is just random text with no legal structure").2.1 (by decide),
   (claim_C7 "This is just random text with no legal structure").2.2 (by decide)⟩

end Fndr
